import Mathlib

/-!
Canon EOS register blocks and machines (hw/arm/eosmpu.c, hw/arm/eos.c)

A shallow embedding of the memory-mapped register handlers of the two machine
models: the four MPU register blocks of `eosmpu.c` (`bl_mmio`, `mmio_0x400f`,
`mmio_0x4009`, `mmio_0x400b`) and the DIGIC8 console device of `eos.c`
(`DigicUartDev_read`, `DigicUartDev_write`); and of the machine construction:
the class init functions of `eos.c`, `eos_r_init` and `eosmpu_init`.

C integers are natural numbers; every conversion to `uint32_t` is an explicit
reduction modulo `2 ^ 32`.  A handler call is a pure function from the device
state pointed to by `ptr` and the call arguments to the new device state, the
returned value (for reads) and the list of output effects of the call.  Which
object the bus hands over as `ptr` is a matter of memory layout and is not part
of this model: a handler is given the value of the device struct it reads.
-/

namespace QemuEos

/-! ## Machine integers and output effects -/

/-- Conversion of a C value to `uint32_t` (also the bit pattern of `(int)x`). -/
def u32 (x : Nat) : Nat := x % 2 ^ 32

/-- Value of `~x` once converted to `uint32_t`, for `x` below `2 ^ 32`. -/
def not32 (x : Nat) : Nat := 2 ^ 32 - 1 - x

/-- Call sites of `custom_logger`, one per format string of `eosmpu.c`. -/
inductive LogSite
  | x5DFF_read
  | x5DFF_write
  | x400F_read
  | x400F_write
  | x4009_read
  | x4009_write
  | x400b_read
  | x400b_write
deriving DecidableEq, Repr

/-- Output effects of a handler call, in program order. -/
inductive Effect
  /-- A `custom_logger(fmt, ...)` call: one diagnostic on stderr. -/
  | logger (site : LogSite) (args : List Nat)
  /-- The `printf("Invalid uart char: '0x%08X'\n", (uint32_t)val)` of the console. -/
  | invalid_char (v : Nat)
  /-- The `printf("%c", (char)val)` of the console: one character on the output stream. -/
  | putchar (c : Nat)
deriving DecidableEq, Repr

/-- Result of a `read` handler: new device state, returned value, effects. -/
structure ReadResult (σ : Type) where
  state : σ
  value : Nat
  out : List Effect

/-- Result of a `write` handler: new device state and effects. -/
structure WriteResult (σ : Type) where
  state : σ
  out : List Effect

/-- Characters put on the console output stream by a list of effects. -/
def console_chars : List Effect → List Nat
  | [] => []
  | Effect.putchar c :: es => c :: console_chars es
  | _ :: es => console_chars es

/-- Anomaly entries (the invalid-character reports) among a list of effects. -/
def anomaly_entries : List Effect → List Nat
  | [] => []
  | Effect.invalid_char v :: es => v :: anomaly_entries es
  | _ :: es => anomaly_entries es

/-! ## eosmpu.c: region handler for 0x5DFF0000 -/

/-- The `bl_mmio` device state (the `MemoryRegion mem` member carries no register data). -/
structure bl_mmio where
  f0x154 : Nat
deriving DecidableEq, Repr

/-- Embedding of `bl_mmio_read`. -/
def bl_mmio_read (mmi : bl_mmio) (addr size : Nat) : ReadResult bl_mmio :=
  let out := [Effect.logger LogSite.x5DFF_read [u32 addr, u32 size]]
  if u32 addr = 0x154 then
    ⟨mmi, mmi.f0x154, out⟩
  else
    ⟨mmi, 0, out⟩

/-- Embedding of `bl_mmio_write`. -/
def bl_mmio_write (mmi : bl_mmio) (addr val size : Nat) : WriteResult bl_mmio :=
  let out := [Effect.logger LogSite.x5DFF_write [u32 addr, u32 size, u32 val]]
  if u32 addr = 0x154 then
    ⟨{ mmi with f0x154 := u32 val }, out⟩
  else
    ⟨mmi, out⟩

/-! ## eosmpu.c: region handler for 0x400F3000 -/

/-- The `mmio_0x400f` device state: the struct has no register field. -/
structure mmio_0x400f where
deriving DecidableEq, Repr

/-- Embedding of `mmio_0x400f_read`. -/
def mmio_0x400f_read (mmi : mmio_0x400f) (addr size : Nat) : ReadResult mmio_0x400f :=
  let out := [Effect.logger LogSite.x400F_read [u32 addr, u32 size]]
  if u32 addr = 0x3020 then
    ⟨mmi, 4, out⟩
  else if u32 addr = 0x3008 then
    ⟨mmi, 0x1000000, out⟩
  else
    ⟨mmi, 0, out⟩

/-- Embedding of `mmio_0x400f_write`: the switch has only a `default: return`. -/
def mmio_0x400f_write (mmi : mmio_0x400f) (addr val size : Nat) : WriteResult mmio_0x400f :=
  ⟨mmi, [Effect.logger LogSite.x400F_write [u32 addr, u32 size, u32 val]]⟩

/-! ## eosmpu.c: region handler for 0x40093000 -/

/-- The `mmio_0x4009` device state: the struct has no register field. -/
structure mmio_0x4009 where
deriving DecidableEq, Repr

/-- Embedding of `mmio_0x4009_read`. -/
def mmio_0x4009_read (mmi : mmio_0x4009) (addr size : Nat) : ReadResult mmio_0x4009 :=
  let out := [Effect.logger LogSite.x4009_read [u32 addr, u32 size]]
  if u32 addr = 0x8200 ∨ u32 addr = 0x9200 ∨ u32 addr = 0xA200 then
    ⟨mmi, (1 <<< 0x14) + (1 <<< 0x6), out⟩
  else
    ⟨mmi, 0, out⟩

/-- Embedding of `mmio_0x4009_write`: the switch has only a `default: return`. -/
def mmio_0x4009_write (mmi : mmio_0x4009) (addr val size : Nat) : WriteResult mmio_0x4009 :=
  ⟨mmi, [Effect.logger LogSite.x4009_write [u32 addr, u32 size, u32 val]]⟩

/-! ## eosmpu.c: region handler for 0x400b3000 -/

/-- The `mmio_0x400b` device state. -/
structure mmio_0x400b where
  f0xa240 : Nat
deriving DecidableEq, Repr

/-- Embedding of the `switch` of `mmio_0x400b_read`: the device state after the
switch and the local `val`. -/
def mmio_0x400b_read_switch (mmi : mmio_0x400b) (addr : Nat) : mmio_0x400b × Nat :=
  if u32 addr = 0xa240 then
    let val := mmi.f0xa240
    if val = 0x1 then
      let mmi1 : mmio_0x400b := { mmi with f0xa240 := u32 (mmi.f0xa240 ||| 0x10) }
      (mmi1, mmi1.f0xa240)
    else if val = 0x11 then
      let mmi1 : mmio_0x400b := { mmi with f0xa240 := u32 (mmi.f0xa240 &&& not32 0x10) }
      (mmi1, mmi1.f0xa240)
    else
      (mmi, val)
  else if u32 addr = 0xA4DC then
    (mmi, 0)
  else
    (mmi, 0)

/-- Embedding of `mmio_0x400b_read`: the switch, the log line, `return val`. -/
def mmio_0x400b_read (mmi : mmio_0x400b) (addr size : Nat) : ReadResult mmio_0x400b :=
  let r := mmio_0x400b_read_switch mmi addr
  ⟨r.1, r.2, [Effect.logger LogSite.x400b_read [u32 addr, u32 size, r.2]]⟩

/-- Embedding of `mmio_0x400b_write`. -/
def mmio_0x400b_write (mmi : mmio_0x400b) (addr val size : Nat) : WriteResult mmio_0x400b :=
  let out := [Effect.logger LogSite.x400b_write [u32 addr, u32 size, u32 val]]
  if u32 addr = 0xa240 then
    ⟨{ mmi with f0xa240 := u32 val }, out⟩
  else
    ⟨mmi, out⟩

/-- Size argument of each of the four `memory_region_init_io` calls of `eosmpu_init`:
the declared span of every MPU register block. -/
def eosmpu_mmio_size : Nat := 0x10000

/-! ## eos.c: the DIGIC8 console device -/

/-- The `DigicUartState` device state (without the `MemoryRegion mem` member). -/
structure DigicUartState where
  flags : Nat
  int_flags : Nat
  reg_st : Nat
  reg_rx : Nat
  uart_just_received : Nat
deriving DecidableEq, Repr

/-- The macro `ST_RX_RDY`. -/
def ST_RX_RDY : Nat := 1 <<< 0

/-- The macro `ST_TX_RDY`. -/
def ST_TX_RDY : Nat := 1 <<< 1

/-- Embedding of `DigicUartDev_read`. -/
def DigicUartDev_read (s : DigicUartState) (addr _size : Nat) : ReadResult DigicUartState :=
  if u32 addr = 0x0 then
    ⟨s, 0, []⟩
  else if u32 addr = 0x04 then
    let s1 : DigicUartState := { s with reg_st := u32 (s.reg_st &&& not32 ST_RX_RDY) }
    ⟨s1, s1.reg_rx, []⟩
  else if u32 addr = 0x14 then
    ⟨s, 2, []⟩
  else
    ⟨s, 0, []⟩

/-- Embedding of `DigicUartDev_write`. -/
def DigicUartDev_write (s : DigicUartState) (addr val _size : Nat) :
    WriteResult DigicUartState :=
  if u32 addr = 0x00 then
    let report := if val ≠ (val &&& 0xFF) then [Effect.invalid_char (u32 val)] else []
    ⟨s, report ++ [Effect.putchar (val % 256)]⟩
  else if u32 addr = 0x08 then
    ⟨{ s with flags := u32 (s.flags &&& not32 0x800) }, []⟩
  else if u32 addr = 0x10 then
    ⟨s, []⟩
  else if u32 addr = 0x14 then
    if val &&& 1 ≠ 0 then
      ⟨{ s with reg_st := u32 (s.reg_st &&& not32 ST_RX_RDY), uart_just_received := 100 }, []⟩
    else
      ⟨{ s with reg_st := u32 val }, []⟩
  else if u32 addr = 0x18 then
    ⟨{ s with int_flags := u32 (val &&& 1) }, []⟩
  else
    ⟨s, []⟩

/-- Size argument of the `memory_region_init_io` call for `digic8.uart` in `eos_r_init`. -/
def digic8_uart_size : Nat := 0x1000

/-! ## The bus side: sequences of accesses dispatched to one block -/

/-- The `read` and `write` members of a `MemoryRegionOps`. -/
structure MemoryRegionOps (σ : Type) where
  read : σ → Nat → Nat → ReadResult σ
  write : σ → Nat → Nat → Nat → WriteResult σ

/-- The handler table `bl_mmio_ops`. -/
def bl_mmio_ops : MemoryRegionOps bl_mmio := ⟨bl_mmio_read, bl_mmio_write⟩

/-- The handler table `mmio_0x400f_ops`. -/
def mmio_0x400f_ops : MemoryRegionOps mmio_0x400f := ⟨mmio_0x400f_read, mmio_0x400f_write⟩

/-- The handler table `mmio_0x4009_ops`. -/
def mmio_0x4009_ops : MemoryRegionOps mmio_0x4009 := ⟨mmio_0x4009_read, mmio_0x4009_write⟩

/-- The handler table `mmio_0x400b_ops`. -/
def mmio_0x400b_ops : MemoryRegionOps mmio_0x400b := ⟨mmio_0x400b_read, mmio_0x400b_write⟩

/-- The handler table `DigicUart_ops`. -/
def DigicUart_ops : MemoryRegionOps DigicUartState := ⟨DigicUartDev_read, DigicUartDev_write⟩

/-- One access of the guest to a register block. -/
inductive Access
  | read (addr size : Nat)
  | write (addr val size : Nat)
deriving DecidableEq, Repr

/-- What a sequence of accesses leaves behind: the final device state, the values
returned by its reads (in order) and all output effects (in order). -/
structure Trace (σ : Type) where
  state : σ
  values : List Nat
  out : List Effect

/-- Dispatch a sequence of accesses, one after the other, to the handlers of a block. -/
def MemoryRegionOps.run {σ : Type} (ops : MemoryRegionOps σ) (s : σ) : List Access → Trace σ
  | [] => ⟨s, [], []⟩
  | Access.read addr size :: rest =>
      let r := ops.read s addr size
      let t := ops.run r.state rest
      ⟨t.state, r.value :: t.values, r.out ++ t.out⟩
  | Access.write addr val size :: rest =>
      let r := ops.write s addr val size
      let t := ops.run r.state rest
      ⟨t.state, t.values, r.out ++ t.out⟩

/-- The firmware handshake cycle on the boot-handshake register: write 1, read,
write 0x11, read. -/
def handshake_cycle (size : Nat) : List Access :=
  [Access.write 0xa240 1 size, Access.read 0xa240 size,
   Access.write 0xa240 0x11 size, Access.read 0xa240 size]

/-- Value expected from the `n`-th (counted from 1) read of offset 0xa240 after a
write of 1 when the reads toggle bit 0x10: 0x11 for odd `n`, 0x01 for even `n`. -/
def toggled (n : Nat) : Nat := if n % 2 = 1 then 0x11 else 0x01

/-! ## Machine construction: regions, classes and CPU objects

The machine init functions call into the framework (object creation, property
setting, `memory_region_init_*`, `memory_region_add_subregion`).  What they ask
for is recorded as data: the regions added to the system memory in call order,
the properties set on the CPU objects, the interrupt wiring.  The trace `printf`
calls of `eos.c` and the string members `desc`, `default_ram_id` and the `init`
callback of `MachineClass` are not represented. -/

/-- The CPU models named by `ARM_CPU_TYPE_NAME(...)` in the two files. -/
inductive CpuType
  | cortex_a9
  | cortex_m4
deriving DecidableEq, Repr

/-- The `name` argument of the `memory_region_init_*` calls: "eos.rom0", "eos.rom1",
"eos.ram_uncached", "eos.ram_cached", "eos.tcm", "digic8.uart", "eosmpu.mpurom",
"eosmpu.ram", "eosmpu.ramextra", "eosmpu.bl_mmio", "eosmpu.mmio_0x4009",
"eosmpu.mmio_0x400f", "eosmpu.mmio_0x400b". -/
inductive RegionId
  | eos_rom0
  | eos_rom1
  | eos_ram_uncached
  | eos_ram_cached
  | eos_tcm
  | digic8_uart
  | eosmpu_mpurom
  | eosmpu_ram
  | eosmpu_ramextra
  | eosmpu_bl_mmio
  | eosmpu_mmio_0x4009
  | eosmpu_mmio_0x400f
  | eosmpu_mmio_0x400b
deriving DecidableEq, Repr

/-- The `path` argument of `memory_region_init_ram_from_file`: "/tmp/rom0.bin",
"/tmp/rom1.bin", "/tmp/mpu.bin". -/
inductive BackingFile
  | tmp_rom0_bin
  | tmp_rom1_bin
  | tmp_mpu_bin
deriving DecidableEq, Repr

/-- The handler table given to `memory_region_init_io`. -/
inductive OpsTable
  | DigicUart_ops
  | bl_mmio_ops
  | mmio_0x4009_ops
  | mmio_0x400f_ops
  | mmio_0x400b_ops
deriving DecidableEq, Repr

/-- How a memory region was initialised. -/
inductive RegionKind
  /-- By `memory_region_init_ram`. -/
  | ram
  /-- By `memory_region_init_ram_from_file(mr, NULL, name, size, 0, RAM_PMEM, path, a8, a9,
  &error_fatal)`: the path and the two arguments after it. -/
  | ram_from_file (path : BackingFile) (a8 a9 : Nat)
  /-- By `memory_region_init_alias(mr, NULL, name, orig, offset, size)`. -/
  | alias (orig : RegionId) (offset : Nat)
  /-- By `memory_region_init_io(mr, NULL, ops, opaque, name, size)`. -/
  | io (ops : OpsTable)
deriving DecidableEq, Repr

/-- An initialised `MemoryRegion`: its name, its size and how it was initialised. -/
structure MemoryRegion where
  name : RegionId
  size : Nat
  kind : RegionKind
deriving DecidableEq, Repr

/-- One `memory_region_add_subregion(system_memory, offset, mr)` call. -/
structure Subregion where
  offset : Nat
  mr : MemoryRegion
deriving DecidableEq, Repr

/-- The members of `MachineClass` that the class init functions assign. -/
structure MachineClass where
  default_cpu_type : Option CpuType
  max_cpus : Nat
  default_cpus : Nat
  ignore_memory_transaction_failures : Bool
  default_ram_size : Nat
deriving DecidableEq, Repr

/-! ## eos.c: the DIGIC8 machine -/

/-- The macro `DIGIC8_PERIPHBASE`. -/
def DIGIC8_PERIPHBASE : Nat := 0xC000000

/-- The macro `DIGIC8_GIC_CPU_IF_ADDR`. -/
def DIGIC8_GIC_CPU_IF_ADDR : Nat := DIGIC8_PERIPHBASE + 0x100

/-- The macro `DIGIC8_NUM_CPUS`. -/
def DIGIC8_NUM_CPUS : Nat := 2

/-- The macro `DIGIC8_NUM_IRQ_GIC`. -/
def DIGIC8_NUM_IRQ_GIC : Nat := 64

/-- The macro `DIGIC8_NUM_IRQ_LEGACY`. -/
def DIGIC8_NUM_IRQ_LEGACY : Nat := 512

/-- The struct `DigicUart`. -/
structure DigicUart where
  rx_int : Nat
  tx_int : Nat
deriving DecidableEq, Repr

/-- The struct `SpiROMClass`; its member `exists` is spelled `exists_` here. -/
structure SpiROMClass where
  address : Nat
  size : Nat
  exists_ : Nat
deriving DecidableEq, Repr

/-- The struct `DIGIC8MachineClass`. -/
structure DIGIC8MachineClass where
  parent : MachineClass
  uart : DigicUart
  boot_address : Nat
deriving DecidableEq, Repr

/-- The struct `DIGIC8EOSMachineClass`. -/
structure DIGIC8EOSMachineClass where
  digic : DIGIC8MachineClass
  ram_size : Nat
  rom0 : SpiROMClass
  rom1 : SpiROMClass
deriving DecidableEq, Repr

/-- The struct `EOSRMachineClass`. -/
structure EOSRMachineClass where
  eos : DIGIC8EOSMachineClass
deriving DecidableEq, Repr

/-- Embedding of `digic8_class_init`. -/
def digic8_class_init (oc : DIGIC8MachineClass) : DIGIC8MachineClass :=
  let mc1 : MachineClass := { oc.parent with default_cpu_type := some CpuType.cortex_a9 }
  let mc2 : MachineClass := { mc1 with max_cpus := DIGIC8_NUM_CPUS }
  let mc3 : MachineClass := { mc2 with default_cpus := mc2.max_cpus }
  let mc4 : MachineClass := { mc3 with ignore_memory_transaction_failures := true }
  { oc with parent := mc4, uart := { rx_int := 0x15D, tx_int := 0x16D } }

/-- Embedding of `digic8_eos_class_init`. -/
def digic8_eos_class_init (eos : DIGIC8EOSMachineClass) : DIGIC8EOSMachineClass :=
  { eos with
    rom0 := { eos.rom0 with address := 0xE0000000 }
    rom1 := { eos.rom1 with address := 0xF0000000 }
    digic := { eos.digic with boot_address := 0xE0000000 } }

/-- Embedding of `eos_r_class_init`. -/
def eos_r_class_init (device : EOSRMachineClass) : EOSRMachineClass :=
  { device with
    eos := { device.eos with
      ram_size := 0x80000000
      rom0 := { device.eos.rom0 with size := 0x02000000 }
      rom1 := { device.eos.rom1 with size := 0x04000000 } } }

/-- The class of the type `eosr_info` ("eos-r-machine"), the EOS R descriptor: the
type chain `digic8_info`, `digic8_eos_info`, `eosr_info` has its `class_init`
functions run base first on the class object, whose prior content is `oc`. -/
def eosr_class (oc : EOSRMachineClass) : EOSRMachineClass :=
  eos_r_class_init
    { oc with eos := digic8_eos_class_init { oc.eos with digic := digic8_class_init oc.eos.digic } }

/-- An EOS R descriptor whose RAM size is `r` instead: a main-topology descriptor for
another amount of RAM. -/
def eosr_class_with_ram (oc : EOSRMachineClass) (r : Nat) : EOSRMachineClass :=
  { eosr_class oc with eos := { (eosr_class oc).eos with ram_size := r } }

/-- An EOS R descriptor whose ROM1 size is `z` instead. -/
def eosr_class_with_rom1_size (oc : EOSRMachineClass) (z : Nat) : EOSRMachineClass :=
  { eosr_class oc with
    eos := { (eosr_class oc).eos with rom1 := { (eosr_class oc).eos.rom1 with size := z } } }

/-- The properties of an `ARMCPU` object that `eos_r_init` sets, whether the object
was realized, and its program counter. -/
structure ARMCPU where
  mp_affinity : Nat
  reset_cbar : Nat
  reset_hivecs : Bool
  has_el3 : Bool
  realized : Bool
  pc : Nat
deriving DecidableEq, Repr

/-- The properties of the `A9MPPrivState` object that `eos_r_init` sets. -/
structure A9MPPrivState where
  num_cpu : Nat
  num_irq : Nat
  realized : Bool
deriving DecidableEq, Repr

/-- The CPU input lines `ARM_CPU_IRQ` and `ARM_CPU_FIQ`. -/
inductive CpuInput
  | ARM_CPU_IRQ
  | ARM_CPU_FIQ
deriving DecidableEq, Repr

/-- One `sysbus_connect_irq(a9mpcore, n, qdev_get_gpio_in(cpu[i], line))` call. -/
structure IrqConnection where
  n : Nat
  cpu : Nat
  line : CpuInput
deriving DecidableEq, Repr

/-- What `eos_r_init` gets back from the framework. -/
structure Framework where
  /-- The object state after `object_initialize_child` for a CPU of the given type. -/
  new_cpu : CpuType → ARMCPU
  /-- The object state after `object_initialize_child` for `TYPE_A9MPCORE_PRIV`. -/
  new_a9mpcore : A9MPPrivState
  /-- The function `arm_cpu_mp_affinity`. -/
  arm_cpu_mp_affinity : Nat → Nat → Nat
  /-- The value returned by `qdev_realize` for core `i`. -/
  qdev_realize : Nat → Bool

/-- The part of the machine state that `eos_r_init` builds: the CPU array, the
a9mpcore object, the subregions of the system memory in call order, the interrupt
wiring. -/
structure EOSRMachineState where
  cpu : List ARMCPU
  a9mpcore : A9MPPrivState
  system_memory : List Subregion
  irq : List IrqConnection

/-- The condition `if(&c->eos.rom1.size)` of `eos_r_init`: the operand is the address of
a member of the class object `c`, which is not a null pointer whatever the member
holds, so the condition is true. -/
def rom1_size_address_test (_c : EOSRMachineClass) : Bool := true

/-- Body of the "realize" loop of `eos_r_init` for core `i`: the four properties. -/
def realize_properties (q : Framework) (i : Nat) (cpu : ARMCPU) : ARMCPU :=
  { cpu with
    mp_affinity := q.arm_cpu_mp_affinity i 2
    reset_cbar := DIGIC8_PERIPHBASE
    reset_hivecs := true
    has_el3 := false }

/-- The "realize" loop of `eos_r_init` from core `i` on: the CPU array afterwards and
whether the loop ran to its end (`false`: a `qdev_realize` failed and the function
returned). -/
def realize_loop (q : Framework) : Nat → List ARMCPU → List ARMCPU × Bool
  | _, [] => ([], true)
  | i, cpu :: rest =>
    let cpu1 := realize_properties q i cpu
    if q.qdev_realize i then
      let r := realize_loop q (i + 1) rest
      ({ cpu1 with realized := true } :: r.1, r.2)
    else
      (cpu1 :: rest, false)

/-- Embedding of `eos_r_init`. -/
def eos_r_init (q : Framework) (c : EOSRMachineClass) : EOSRMachineState :=
  let cpu0 := (List.range DIGIC8_NUM_CPUS).map (fun _ => q.new_cpu CpuType.cortex_a9)
  let a9mpcore0 := q.new_a9mpcore
  let rom0 : Subregion :=
    ⟨c.eos.rom0.address,
     ⟨RegionId.eos_rom0, c.eos.rom0.size, RegionKind.ram_from_file BackingFile.tmp_rom0_bin 0 1⟩⟩
  let rom1 : Subregion :=
    ⟨c.eos.rom1.address,
     ⟨RegionId.eos_rom1, c.eos.rom1.size, RegionKind.ram_from_file BackingFile.tmp_rom1_bin 0 1⟩⟩
  let mem1 := if rom1_size_address_test c then [rom0, rom1] else [rom0]
  let ram_size := c.eos.ram_size
  let ram_uncached : Subregion :=
    ⟨0x40000000, ⟨RegionId.eos_ram_uncached, ram_size, RegionKind.ram⟩⟩
  let uncacheable_size := if ram_size > 0x40000000 then 0x40000000 else ram_size
  let ram_cached : Subregion :=
    ⟨0x0, ⟨RegionId.eos_ram_cached, uncacheable_size,
      RegionKind.alias RegionId.eos_ram_uncached 0x00000000⟩⟩
  let tcm : Subregion := ⟨0xDF000000, ⟨RegionId.eos_tcm, 0x1000000, RegionKind.ram⟩⟩
  let uart : Subregion :=
    ⟨0xC0800000, ⟨RegionId.digic8_uart, digic8_uart_size, RegionKind.io OpsTable.DigicUart_ops⟩⟩
  let mem := mem1 ++ [ram_uncached, ram_cached, tcm, uart]
  let r := realize_loop q 0 cpu0
  if r.2 then
    let a9mpcore1 : A9MPPrivState :=
      { a9mpcore0 with num_cpu := DIGIC8_NUM_CPUS, num_irq := DIGIC8_NUM_IRQ_GIC, realized := true }
    let irq := (List.range DIGIC8_NUM_CPUS).map (fun i => [
      (⟨i, i, CpuInput.ARM_CPU_IRQ⟩ : IrqConnection),
      ⟨i + DIGIC8_NUM_CPUS, i, CpuInput.ARM_CPU_FIQ⟩])
    let cpu2 := r.1.map (fun cpu => { cpu with pc := c.eos.digic.boot_address })
    ⟨cpu2, a9mpcore1, mem, irq.flatten⟩
  else
    ⟨r.1, a9mpcore0, mem, []⟩

/-! ## eosmpu.c: the MPU machine -/

/-- The macro `SYSCLK_FRQ` of `eosmpu.c`. -/
def SYSCLK_FRQ : Nat := 100000000

/-- The properties of the `ARMv7MState` object that `eosmpu_init` sets. -/
structure ARMv7MState where
  cpuclk_hz : Nat
  cpu_type : CpuType
  enable_bitband : Bool
  memory_is_system_memory : Bool
  realized : Bool
deriving DecidableEq, Repr

/-- The part of `EOSMPUMachineState` that `eosmpu_init` builds. -/
structure EOSMPUMachineState where
  armv7m : ARMv7MState
  system_memory : List Subregion
deriving DecidableEq, Repr

/-- Embedding of `eosmpu_init`; `cpu_type` is `machine->cpu_type`. -/
def eosmpu_init (cpu_type : CpuType) : EOSMPUMachineState :=
  let mpurom : Subregion :=
    ⟨0x0, ⟨RegionId.eosmpu_mpurom, 0x100000, RegionKind.ram_from_file BackingFile.tmp_mpu_bin 0 1⟩⟩
  let ram : Subregion := ⟨0x20000000, ⟨RegionId.eosmpu_ram, 0xE000, RegionKind.ram⟩⟩
  let ramextra : Subregion := ⟨0x22000000, ⟨RegionId.eosmpu_ramextra, 0x200000, RegionKind.ram⟩⟩
  let bl : Subregion :=
    ⟨0x5DFF0000, ⟨RegionId.eosmpu_bl_mmio, eosmpu_mmio_size, RegionKind.io OpsTable.bl_mmio_ops⟩⟩
  let m4009 : Subregion :=
    ⟨0x40090000,
     ⟨RegionId.eosmpu_mmio_0x4009, eosmpu_mmio_size, RegionKind.io OpsTable.mmio_0x4009_ops⟩⟩
  let m400f : Subregion :=
    ⟨0x400F0000,
     ⟨RegionId.eosmpu_mmio_0x400f, eosmpu_mmio_size, RegionKind.io OpsTable.mmio_0x400f_ops⟩⟩
  let m400b : Subregion :=
    ⟨0x400b0000,
     ⟨RegionId.eosmpu_mmio_0x400b, eosmpu_mmio_size, RegionKind.io OpsTable.mmio_0x400b_ops⟩⟩
  { armv7m :=
      { cpuclk_hz := SYSCLK_FRQ, cpu_type := cpu_type, enable_bitband := true,
        memory_is_system_memory := true, realized := true }
    system_memory := [mpurom, ram, ramextra, bl, m4009, m400f, m400b] }

/-- Embedding of `eosmpu_class_init`; `KiB` is 1024. -/
def eosmpu_class_init (mc : MachineClass) : MachineClass :=
  { mc with max_cpus := 1, default_ram_size := 16 * 1024 }

/-- Embedding of `eosmpu_r5_class_init`. -/
def eosmpu_r5_class_init (mc : MachineClass) : MachineClass :=
  { mc with
    max_cpus := 1
    ignore_memory_transaction_failures := true
    default_cpu_type := some CpuType.cortex_m4 }

/-! ## Placed regions and address resolution -/

/-- The address range of a placed region holds `a`. -/
def Subregion.covers (r : Subregion) (a : Nat) : Bool :=
  decide (r.offset ≤ a ∧ a < r.offset + r.mr.size)

/-- Two placed regions have no address in common. -/
def Subregion.disjoint (r t : Subregion) : Prop :=
  r.offset + r.mr.size ≤ t.offset ∨ t.offset + t.mr.size ≤ r.offset

/-- Whether two placed regions overlap can be computed. -/
instance Subregion.disjoint_decidable (r t : Subregion) : Decidable (r.disjoint t) := by
  unfold Subregion.disjoint
  infer_instance

/-- The subregions of a memory map that carry the name `id`. -/
def placed (map : List Subregion) (id : RegionId) : List Subregion :=
  map.filter (fun r => decide (r.mr.name = id))

/-- The address ranges, as pairs (address, size), of a memory map in call order. -/
def ranges (map : List Subregion) : List (Nat × Nat) :=
  map.map (fun r => (r.offset, r.mr.size))

/-- Modelled from the spec: the memory-dispatch substrate (the generic address-space
plumbing, which is not under src/) resolving an address of the system memory to a
byte of a backing store. An address at distance d from the start of a placed region
that holds it resolves to byte d of that region, except that in an alias region it
resolves to byte `offset + d` of the region the alias was made of: "two address
ranges observe the same underlying storage, not independent copies". -/
def resolve (map : List Subregion) (a : Nat) : Option (RegionId × Nat) :=
  match map.find? (fun r => r.covers a) with
  | none => none
  | some r =>
    match r.mr.kind with
    | RegionKind.alias orig offset => some (orig, offset + (a - r.offset))
    | _ => some (r.mr.name, a - r.offset)

/-- Modelled from the spec: the content of the backing stores, one byte per region
name and byte offset. -/
def Storage : Type := RegionId → Nat → Nat

/-- Modelled from the spec: a byte write through address `a` of the system memory,
which lands in the byte that `a` resolves to ("writes through either alias must be
visible through the other immediately"). -/
def bus_write (map : List Subregion) (st : Storage) (a b : Nat) : Storage :=
  match resolve map a with
  | none => st
  | some (id, off) => fun id1 off1 => if id1 = id ∧ off1 = off then b else st id1 off1

/-- Modelled from the spec: a byte read through address `a` of the system memory. -/
def bus_read (map : List Subregion) (st : Storage) (a : Nat) : Option Nat :=
  match resolve map a with
  | none => none
  | some (id, off) => some (st id off)

/-- A class object whose prior content is all zero, as a freshly allocated class
object is. -/
def zero_class : EOSRMachineClass :=
  { eos :=
    { digic :=
      { parent :=
        { default_cpu_type := none, max_cpus := 0, default_cpus := 0,
          ignore_memory_transaction_failures := false, default_ram_size := 0 }
        uart := { rx_int := 0, tx_int := 0 }
        boot_address := 0 }
      ram_size := 0
      rom0 := { address := 0, size := 0, exists_ := 0 }
      rom1 := { address := 0, size := 0, exists_ := 0 } } }

/-- A framework in which every `qdev_realize` succeeds; new objects have all-zero
properties and `arm_cpu_mp_affinity(idx, clustersz)` is taken to be `idx`. -/
def framework_ok : Framework :=
  { new_cpu := fun _ =>
      { mp_affinity := 0, reset_cbar := 0, reset_hivecs := false, has_el3 := true,
        realized := false, pc := 0 }
    new_a9mpcore := { num_cpu := 0, num_irq := 0, realized := false }
    arm_cpu_mp_affinity := fun idx _ => idx
    qdev_realize := fun _ => true }

/-! ## Theorems -/

/-! ### Basic facts about the boot-handshake register -/

theorem mmio_0x400b_write_state (mmi : mmio_0x400b) (val size : Nat) :
    (mmio_0x400b_write mmi 0xa240 val size).state = ⟨u32 val⟩ := by
  simp [mmio_0x400b_write, u32]

theorem mmio_0x400b_read_one (size : Nat) :
    (mmio_0x400b_read ⟨1⟩ 0xa240 size).state = ⟨0x11⟩ ∧
    (mmio_0x400b_read ⟨1⟩ 0xa240 size).value = 0x11 := by
  simp [mmio_0x400b_read, mmio_0x400b_read_switch, u32]

theorem mmio_0x400b_read_seventeen (size : Nat) :
    (mmio_0x400b_read ⟨0x11⟩ 0xa240 size).state = ⟨0x01⟩ ∧
    (mmio_0x400b_read ⟨0x11⟩ 0xa240 size).value = 0x01 := by
  have h : (17 &&& 4294967279) % 4294967296 = 1 := by decide
  simp [mmio_0x400b_read, mmio_0x400b_read_switch, u32, not32, h]

theorem mmio_0x400b_read_other (v size : Nat) (h1 : v ≠ 1) (h11 : v ≠ 0x11) :
    (mmio_0x400b_read ⟨v⟩ 0xa240 size).state = ⟨v⟩ ∧
    (mmio_0x400b_read ⟨v⟩ 0xa240 size).value = v := by
  simp [mmio_0x400b_read, mmio_0x400b_read_switch, u32, h1, h11]

theorem run_nil {σ : Type} (ops : MemoryRegionOps σ) (s : σ) :
    ops.run s [] = ⟨s, [], []⟩ := rfl

theorem run_read {σ : Type} (ops : MemoryRegionOps σ) (s : σ) (addr size : Nat)
    (rest : List Access) :
    ops.run s (Access.read addr size :: rest) =
      ⟨(ops.run (ops.read s addr size).state rest).state,
       (ops.read s addr size).value :: (ops.run (ops.read s addr size).state rest).values,
       (ops.read s addr size).out ++ (ops.run (ops.read s addr size).state rest).out⟩ := rfl

theorem run_write {σ : Type} (ops : MemoryRegionOps σ) (s : σ) (addr val size : Nat)
    (rest : List Access) :
    ops.run s (Access.write addr val size :: rest) =
      ⟨(ops.run (ops.write s addr val size).state rest).state,
       (ops.run (ops.write s addr val size).state rest).values,
       (ops.write s addr val size).out ++ (ops.run (ops.write s addr val size).state rest).out⟩ :=
  rfl

/-! ### Consecutive reads of the boot-handshake register -/

theorem toggled_succ_succ (n : Nat) : toggled (n + 2) = toggled n := by
  unfold toggled
  rw [Nat.add_mod_right]

theorem reads_from_one_and_seventeen (size n : Nat) :
    (mmio_0x400b_ops.run ⟨1⟩ (List.replicate n (Access.read 0xa240 size))).values
      = (List.range n).map (fun i => toggled (i + 1)) ∧
    (mmio_0x400b_ops.run ⟨0x11⟩ (List.replicate n (Access.read 0xa240 size))).values
      = (List.range n).map (fun i => toggled (i + 2)) := by
  induction n with
  | zero => exact ⟨rfl, rfl⟩
  | succ n ih =>
    obtain ⟨ih1, ih2⟩ := ih
    have r1 := mmio_0x400b_read_one size
    have r2 := mmio_0x400b_read_seventeen size
    have e : mmio_0x400b_ops.read = mmio_0x400b_read := rfl
    constructor
    · rw [List.replicate_succ, run_read, List.range_succ_eq_map, e, r1.1, r1.2, ih2]
      simp [List.map_map, Function.comp_def, toggled, Nat.succ_eq_add_one, Nat.add_assoc]
    · rw [List.replicate_succ, run_read, List.range_succ_eq_map, e, r2.1, r2.2, ih1]
      simp only [List.map_cons, List.map_map, Function.comp_def, Nat.succ_eq_add_one,
        Nat.add_assoc, toggled_succ_succ]
      simp [toggled]

theorem reads_of_other (v size n : Nat) (h1 : v ≠ 1) (h11 : v ≠ 0x11) :
    (mmio_0x400b_ops.run ⟨v⟩ (List.replicate n (Access.read 0xa240 size))).values
      = List.replicate n v ∧
    (mmio_0x400b_ops.run ⟨v⟩ (List.replicate n (Access.read 0xa240 size))).state = ⟨v⟩ := by
  induction n with
  | zero => exact ⟨rfl, rfl⟩
  | succ n ih =>
    have r := mmio_0x400b_read_other v size h1 h11
    have e : mmio_0x400b_ops.read = mmio_0x400b_read := rfl
    rw [List.replicate_succ, run_read, e, r.1, r.2, ih.1, ih.2]
    exact ⟨rfl, rfl⟩

theorem handshake_cycles_values (mmi : mmio_0x400b) (size k : Nat) :
    (mmio_0x400b_ops.run mmi (List.replicate k (handshake_cycle size)).flatten).values
      = (List.replicate k [0x11, 0x01]).flatten := by
  induction k generalizing mmi with
  | zero => rfl
  | succ k ih =>
    have e : mmio_0x400b_ops.read = mmio_0x400b_read := rfl
    have w : mmio_0x400b_ops.write = mmio_0x400b_write := rfl
    have u1 : u32 1 = 1 := by decide
    have u2 : u32 0x11 = 0x11 := by decide
    simp only [List.replicate_succ, List.flatten_cons, handshake_cycle, List.cons_append,
      List.nil_append, run_read, run_write, e, w, mmio_0x400b_write_state, u1, u2,
      (mmio_0x400b_read_one size).1, (mmio_0x400b_read_one size).2,
      (mmio_0x400b_read_seventeen size).1, (mmio_0x400b_read_seventeen size).2]
    rw [← handshake_cycle, ih]

/-! ### The claims -/

/-- C1: for every prior state of the boot-handshake block, a write of 1 at offset
0xa240 followed immediately by a read of offset 0xa240 returns 0x11, and the
stored field is 0x11 after that read. -/
theorem mmio_0x400b_write1_read (mmi : mmio_0x400b) (wsize rsize : Nat) :
    (mmio_0x400b_read (mmio_0x400b_write mmi 0xa240 1 wsize).state 0xa240 rsize).value = 0x11 ∧
    (mmio_0x400b_read (mmio_0x400b_write mmi 0xa240 1 wsize).state 0xa240 rsize).state.f0xa240
      = 0x11 := by
  constructor <;>
    simp [mmio_0x400b_read, mmio_0x400b_write, mmio_0x400b_read_switch, u32]

/-- C2, as stated, fails: from the state with stored field 0, after a write of 1 at
offset 0xa240 the second consecutive read of offset 0xa240 returns 0x01, not 0x11. -/
theorem mmio_0x400b_second_read_is_one :
    (mmio_0x400b_ops.run ⟨0⟩
      [Access.write 0xa240 1 4, Access.read 0xa240 4, Access.read 0xa240 4]).values
        = [0x11, 0x01] ∧
    ¬ (mmio_0x400b_ops.run ⟨0⟩
      (Access.write 0xa240 1 4 :: List.replicate 2 (Access.read 0xa240 4))).values
        = List.replicate 2 0x11 := by
  decide

/-- C2, amended: after a write of 1 at offset 0xa240, the reads of offset 0xa240 made
before the next write alternate: for every n >= 1 the n-th consecutive read returns
0x11 when n is odd and 0x01 when n is even (so the first read returns 0x11). -/
theorem mmio_0x400b_reads_after_write1 (mmi : mmio_0x400b) (wsize rsize n : Nat) :
    (mmio_0x400b_ops.run mmi
      (Access.write 0xa240 1 wsize :: List.replicate n (Access.read 0xa240 rsize))).values
        = (List.range n).map (fun i => if (i + 1) % 2 = 1 then 0x11 else 0x01) := by
  have w : mmio_0x400b_ops.write = mmio_0x400b_write := rfl
  have u1 : u32 1 = 1 := by decide
  rw [run_write, w, mmio_0x400b_write_state, u1]
  exact (reads_from_one_and_seventeen rsize n).1

/-- C3: for every prior state, a write of 0x11 at offset 0xa240 followed immediately
by a read of offset 0xa240 returns 0x01; and k repetitions of the four-step cycle
(write 1, read, write 0x11, read) return 0x11 from the first read and 0x01 from the
second read of every repetition, for every k and every starting state. -/
theorem mmio_0x400b_handshake_cycle (mmi : mmio_0x400b) (wsize rsize size k : Nat) :
    (mmio_0x400b_read (mmio_0x400b_write mmi 0xa240 0x11 wsize).state 0xa240 rsize).value
      = 0x01 ∧
    (mmio_0x400b_ops.run mmi (List.replicate k (handshake_cycle size)).flatten).values
      = (List.replicate k [0x11, 0x01]).flatten := by
  have u2 : u32 0x11 = 0x11 := by decide
  refine ⟨?_, handshake_cycles_values mmi size k⟩
  rw [mmio_0x400b_write_state, u2]
  exact (mmio_0x400b_read_seventeen rsize).2

/-- C4: for every 32-bit value v other than 1 and 0x11, a write of v at offset 0xa240
stores exactly v, and n following consecutive reads of offset 0xa240 all return v and
leave the stored field equal to v, for every n. -/
theorem mmio_0x400b_plain_value (mmi : mmio_0x400b) (v wsize rsize n : Nat)
    (hv : v < 2 ^ 32) (h1 : v ≠ 1) (h11 : v ≠ 0x11) :
    (mmio_0x400b_write mmi 0xa240 v wsize).state.f0xa240 = v ∧
    (mmio_0x400b_ops.run (mmio_0x400b_write mmi 0xa240 v wsize).state
      (List.replicate n (Access.read 0xa240 rsize))).values = List.replicate n v ∧
    (mmio_0x400b_ops.run (mmio_0x400b_write mmi 0xa240 v wsize).state
      (List.replicate n (Access.read 0xa240 rsize))).state.f0xa240 = v := by
  have uv : u32 v = v := Nat.mod_eq_of_lt hv
  rw [mmio_0x400b_write_state, uv]
  have r := reads_of_other v rsize n h1 h11
  rw [r.1, r.2]
  exact ⟨rfl, rfl, rfl⟩

/-- Witness for C4 at the stored field 7, the value 0x10 and three reads. -/
theorem mmio_0x400b_plain_value_witness :
    (mmio_0x400b_write ⟨7⟩ 0xa240 0x10 4).state.f0xa240 = 0x10 ∧
    (mmio_0x400b_ops.run (mmio_0x400b_write ⟨7⟩ 0xa240 0x10 4).state
      (List.replicate 3 (Access.read 0xa240 4))).values = List.replicate 3 0x10 ∧
    (mmio_0x400b_ops.run (mmio_0x400b_write ⟨7⟩ 0xa240 0x10 4).state
      (List.replicate 3 (Access.read 0xa240 4))).state.f0xa240 = 0x10 :=
  mmio_0x400b_plain_value ⟨7⟩ 0x10 4 4 3 (by decide) (by decide) (by decide)

/-! ### Offsets that no handler models -/

theorem u32_of_lt_mmio_size {addr : Nat} (h : addr < eosmpu_mmio_size) : u32 addr = addr :=
  Nat.mod_eq_of_lt (Nat.lt_trans h (by decide))

theorem u32_of_lt_uart_size {addr : Nat} (h : addr < digic8_uart_size) : u32 addr = addr :=
  Nat.mod_eq_of_lt (Nat.lt_trans h (by decide))

/-- C5: for each of the five register blocks and every offset inside the declared
span of the block, a read at an offset that is not a modeled read offset returns 0
and leaves the block state unchanged, and a write of any value at an offset that is
not a modeled write offset leaves the block state unchanged and puts no character
(and no anomaly entry) on the console. -/
theorem unmodeled_offsets_inert (addr val size : Nat) :
    (addr < eosmpu_mmio_size → addr ≠ 0x154 → ∀ mmi : bl_mmio,
      (bl_mmio_read mmi addr size).value = 0 ∧ (bl_mmio_read mmi addr size).state = mmi) ∧
    (addr < eosmpu_mmio_size → addr ≠ 0x154 → ∀ mmi : bl_mmio,
      (bl_mmio_write mmi addr val size).state = mmi ∧
      console_chars (bl_mmio_write mmi addr val size).out = [] ∧
      anomaly_entries (bl_mmio_write mmi addr val size).out = []) ∧
    (addr < eosmpu_mmio_size → addr ≠ 0x3008 → addr ≠ 0x3020 → ∀ mmi : mmio_0x400f,
      (mmio_0x400f_read mmi addr size).value = 0 ∧
      (mmio_0x400f_read mmi addr size).state = mmi) ∧
    (addr < eosmpu_mmio_size → ∀ mmi : mmio_0x400f,
      (mmio_0x400f_write mmi addr val size).state = mmi ∧
      console_chars (mmio_0x400f_write mmi addr val size).out = [] ∧
      anomaly_entries (mmio_0x400f_write mmi addr val size).out = []) ∧
    (addr < eosmpu_mmio_size → addr ≠ 0x8200 → addr ≠ 0x9200 → addr ≠ 0xA200 →
      ∀ mmi : mmio_0x4009,
      (mmio_0x4009_read mmi addr size).value = 0 ∧
      (mmio_0x4009_read mmi addr size).state = mmi) ∧
    (addr < eosmpu_mmio_size → ∀ mmi : mmio_0x4009,
      (mmio_0x4009_write mmi addr val size).state = mmi ∧
      console_chars (mmio_0x4009_write mmi addr val size).out = [] ∧
      anomaly_entries (mmio_0x4009_write mmi addr val size).out = []) ∧
    (addr < eosmpu_mmio_size → addr ≠ 0xa240 → ∀ mmi : mmio_0x400b,
      (mmio_0x400b_read mmi addr size).value = 0 ∧
      (mmio_0x400b_read mmi addr size).state = mmi) ∧
    (addr < eosmpu_mmio_size → addr ≠ 0xa240 → ∀ mmi : mmio_0x400b,
      (mmio_0x400b_write mmi addr val size).state = mmi ∧
      console_chars (mmio_0x400b_write mmi addr val size).out = [] ∧
      anomaly_entries (mmio_0x400b_write mmi addr val size).out = []) ∧
    (addr < digic8_uart_size → addr ≠ 0x04 → addr ≠ 0x14 → ∀ s : DigicUartState,
      (DigicUartDev_read s addr size).value = 0 ∧ (DigicUartDev_read s addr size).state = s) ∧
    (addr < digic8_uart_size → addr ≠ 0x00 → addr ≠ 0x08 → addr ≠ 0x14 → addr ≠ 0x18 →
      ∀ s : DigicUartState,
      (DigicUartDev_write s addr val size).state = s ∧
      console_chars (DigicUartDev_write s addr val size).out = [] ∧
      anomaly_entries (DigicUartDev_write s addr val size).out = []) := by
  refine ⟨?_, ?_, ?_, ?_, ?_, ?_, ?_, ?_, ?_, ?_⟩
  · intro h h1 mmi
    simp [bl_mmio_read, u32_of_lt_mmio_size h, h1]
  · intro h h1 mmi
    simp [bl_mmio_write, u32_of_lt_mmio_size h, h1, console_chars, anomaly_entries]
  · intro h h1 h2 mmi
    simp [mmio_0x400f_read, u32_of_lt_mmio_size h, h1, h2]
  · intro _ mmi
    simp [mmio_0x400f_write, console_chars, anomaly_entries]
  · intro h h1 h2 h3 mmi
    simp [mmio_0x4009_read, u32_of_lt_mmio_size h, h1, h2, h3]
  · intro _ mmi
    simp [mmio_0x4009_write, console_chars, anomaly_entries]
  · intro h h1 mmi
    simp only [mmio_0x400b_read, mmio_0x400b_read_switch, u32_of_lt_mmio_size h, h1]
    simp
  · intro h h1 mmi
    simp [mmio_0x400b_write, u32_of_lt_mmio_size h, h1, console_chars, anomaly_entries]
  · intro h h1 h2 s
    simp only [DigicUartDev_read, u32_of_lt_uart_size h, h1, h2, if_false]
    constructor <;> split <;> simp
  · intro h h1 h2 h3 h4 s
    simp only [DigicUartDev_write, u32_of_lt_uart_size h, h1, h2, h3, h4, if_false]
    refine ⟨?_, ?_, ?_⟩ <;> split <;> simp [console_chars, anomaly_entries]

/-- Witness for C5 at offset 0x10, which no block models, with the value 0x41. -/
theorem unmodeled_offsets_inert_witness :
    ((bl_mmio_read ⟨5⟩ 0x10 4).value = 0 ∧ (bl_mmio_read ⟨5⟩ 0x10 4).state = ⟨5⟩) ∧
    ((mmio_0x400b_write ⟨5⟩ 0x10 0x41 4).state = ⟨5⟩ ∧
      console_chars (mmio_0x400b_write ⟨5⟩ 0x10 0x41 4).out = [] ∧
      anomaly_entries (mmio_0x400b_write ⟨5⟩ 0x10 0x41 4).out = []) ∧
    ((DigicUartDev_read ⟨0, 0, 1, 0x42, 0⟩ 0x10 4).value = 0 ∧
      (DigicUartDev_read ⟨0, 0, 1, 0x42, 0⟩ 0x10 4).state = ⟨0, 0, 1, 0x42, 0⟩) ∧
    ((DigicUartDev_write ⟨0, 0, 1, 0x42, 0⟩ 0x10 0x41 4).state = ⟨0, 0, 1, 0x42, 0⟩ ∧
      console_chars (DigicUartDev_write ⟨0, 0, 1, 0x42, 0⟩ 0x10 0x41 4).out = [] ∧
      anomaly_entries (DigicUartDev_write ⟨0, 0, 1, 0x42, 0⟩ 0x10 0x41 4).out = []) :=
  have h := unmodeled_offsets_inert 0x10 0x41 4
  ⟨h.1 (by decide) (by decide) ⟨5⟩,
   h.2.2.2.2.2.2.2.1 (by decide) (by decide) ⟨5⟩,
   h.2.2.2.2.2.2.2.2.1 (by decide) (by decide) (by decide) ⟨0, 0, 1, 0x42, 0⟩,
   h.2.2.2.2.2.2.2.2.2 (by decide) (by decide) (by decide) (by decide) (by decide)
     ⟨0, 0, 1, 0x42, 0⟩⟩

/-! ### The stateless blocks and the bootloader block -/

theorem mmio_0x4009_run_state (mmi : mmio_0x4009) (ops : List Access) :
    (mmio_0x4009_ops.run mmi ops).state = mmi := rfl

theorem mmio_0x400f_run_state (mmi : mmio_0x400f) (ops : List Access) :
    (mmio_0x400f_ops.run mmi ops).state = mmi := rfl

theorem status_pattern_bits (i : Nat) :
    Nat.testBit ((1 <<< 0x14) + (1 <<< 0x6)) i = true ↔ (i = 0x14 ∨ i = 0x6) := by
  by_cases hi : i < 21
  · interval_cases i <;> decide
  · have hlt : (1 <<< 0x14) + (1 <<< 0x6) < 2 ^ i :=
      Nat.lt_of_lt_of_le (by decide : (1 <<< 0x14) + (1 <<< 0x6) < 2 ^ 21)
        (Nat.pow_le_pow_right (by decide) (Nat.le_of_not_lt hi))
    rw [Nat.testBit_lt_two_pow hlt]
    constructor
    · intro h
      cases h
    · rintro (h | h) <;> omega

theorem bl_mmio_run_state (mmi : bl_mmio) (ops : List Access)
    (h : ∀ addr val size, Access.write addr val size ∈ ops → u32 addr ≠ 0x154) :
    (bl_mmio_ops.run mmi ops).state = mmi := by
  induction ops generalizing mmi with
  | nil => rfl
  | cons a rest ih =>
    have hrest : ∀ addr val size, Access.write addr val size ∈ rest → u32 addr ≠ 0x154 :=
      fun addr val size hm => h addr val size (List.mem_cons_of_mem _ hm)
    cases a with
    | read addr size =>
      have e : (bl_mmio_ops.read mmi addr size).state = mmi := by
        show (bl_mmio_read mmi addr size).state = mmi
        unfold bl_mmio_read
        split <;> rfl
      rw [run_read, e]
      exact ih mmi hrest
    | write addr val size =>
      have hne : u32 addr ≠ 0x154 := h addr val size (List.mem_cons_self _ _)
      have e : (bl_mmio_ops.write mmi addr val size).state = mmi := by
        show (bl_mmio_write mmi addr val size).state = mmi
        simp [bl_mmio_write, hne]
      rw [run_write, e]
      exact ih mmi hrest

/-- C6: after every finite sequence of accesses to the multi-channel status block
(in particular every sequence of writes of any values at any offsets), a read at
each of the offsets 0x8200, 0x9200 and 0xA200 returns 0x100040, and the set bits of
that value are exactly bit 0x14 and bit 0x6 (so bits 0x17 and 0x7 are clear). -/
theorem mmio_0x4009_read_fixed (mmi : mmio_0x4009) (ops : List Access) (size i : Nat) :
    (mmio_0x4009_read (mmio_0x4009_ops.run mmi ops).state 0x8200 size).value = 0x100040 ∧
    (mmio_0x4009_read (mmio_0x4009_ops.run mmi ops).state 0x9200 size).value = 0x100040 ∧
    (mmio_0x4009_read (mmio_0x4009_ops.run mmi ops).state 0xA200 size).value = 0x100040 ∧
    (Nat.testBit
      (mmio_0x4009_read (mmio_0x4009_ops.run mmi ops).state 0x8200 size).value i = true
        ↔ (i = 0x14 ∨ i = 0x6)) := by
  have v1 : (mmio_0x4009_read (mmio_0x4009_ops.run mmi ops).state 0x8200 size).value
      = (1 <<< 0x14) + (1 <<< 0x6) := by
    simp [mmio_0x4009_read, u32]
  refine ⟨?_, ?_, ?_, ?_⟩
  · rw [v1]; decide
  · simp [mmio_0x4009_read, u32]
  · simp [mmio_0x4009_read, u32]
  · rw [v1]
    exact status_pattern_bits i

/-- C7, as stated, fails for the bootloader block bl_mmio: from the stored field 0 a
read of offset 0x154 returns 0, and after a write of 1 at offset 0x154 the block
state has changed and the same read returns 1. -/
theorem bl_mmio_write_is_kept :
    (bl_mmio_read ⟨0⟩ 0x154 4).value = 0 ∧
    (bl_mmio_read (bl_mmio_ops.run ⟨0⟩ [Access.write 0x154 1 4]).state 0x154 4).value = 1 ∧
    (bl_mmio_ops.run ⟨0⟩ [Access.write 0x154 1 4]).state ≠ ⟨0⟩ := by
  decide

/-- C7, amended: the block mmio_0x400f discards every write, of any value at any
offset, and keeps no state, so after any sequence of accesses (with or without writes
at offset 0x154) a read at any offset returns what it returned before; the block
bl_mmio behaves so for every sequence of accesses that holds no write at offset
0x154, while a write at offset 0x154 is kept in its field f0x154 (low 32 bits). -/
theorem probe_blocks_writes (m : mmio_0x400f) (mmi : bl_mmio) (ops : List Access)
    (addr val size : Nat) :
    (mmio_0x400f_write m addr val size).state = m ∧
    (mmio_0x400f_ops.run m ops).state = m ∧
    (mmio_0x400f_read (mmio_0x400f_ops.run m ops).state addr size).value
      = (mmio_0x400f_read m addr size).value ∧
    ((∀ a v sz, Access.write a v sz ∈ ops → u32 a ≠ 0x154) →
      (bl_mmio_ops.run mmi ops).state = mmi ∧
      (bl_mmio_read (bl_mmio_ops.run mmi ops).state addr size).value
        = (bl_mmio_read mmi addr size).value) ∧
    (bl_mmio_write mmi 0x154 val size).state.f0x154 = u32 val := by
  refine ⟨rfl, rfl, rfl, fun h => ⟨bl_mmio_run_state mmi ops h, ?_⟩, ?_⟩
  · rw [bl_mmio_run_state mmi ops h]
  · simp [bl_mmio_write, u32]

/-- Witness for the amended C7: for mmio_0x400f a sequence with a write at offset
0x154, for bl_mmio the writes the bootloader makes at offsets 0x18 and 0x1200. -/
theorem probe_blocks_writes_witness :
    (mmio_0x400f_ops.run ⟨⟩ [Access.write 0x154 1 4, Access.write 0x3020 7 4]).state = ⟨⟩ ∧
    (mmio_0x400f_read
      (mmio_0x400f_ops.run ⟨⟩ [Access.write 0x154 1 4, Access.write 0x3020 7 4]).state
      0x3020 4).value = (mmio_0x400f_read ⟨⟩ 0x3020 4).value ∧
    (bl_mmio_ops.run ⟨1⟩ [Access.write 0x18 0xe74a9d23 4, Access.write 0x1200 4 4]).state
      = ⟨1⟩ ∧
    (bl_mmio_read
      (bl_mmio_ops.run ⟨1⟩ [Access.write 0x18 0xe74a9d23 4, Access.write 0x1200 4 4]).state
      0x154 4).value = (bl_mmio_read ⟨1⟩ 0x154 4).value ∧
    (bl_mmio_write ⟨1⟩ 0x154 7 4).state.f0x154 = u32 7 :=
  have h1 := probe_blocks_writes ⟨⟩ ⟨1⟩ [Access.write 0x154 1 4, Access.write 0x3020 7 4]
    0x3020 7 4
  have h2 := probe_blocks_writes ⟨⟩ ⟨1⟩
    [Access.write 0x18 0xe74a9d23 4, Access.write 0x1200 4 4] 0x154 7 4
  have h3 := h2.2.2.2.1
    (by
      intro a v sz hm
      simp only [List.mem_cons, Access.write.injEq, List.mem_singleton, List.mem_nil_iff,
        or_false] at hm
      rcases hm with ⟨rfl, _, _⟩ | ⟨rfl, _, _⟩ <;> decide)
  ⟨h1.2.1, h1.2.2.1, h3.1, h3.2, h2.2.2.2.2⟩

/-- C8: for every offset and every access width, a read of the block mmio_0x400f
returns 4 at offset 0x3020, 0x1000000 at offset 0x3008 and 0 at every other offset.
The handler decides on the 32-bit switch operand `(uint32_t)addr` (first part), which
is the offset itself for every offset below 2 ^ 32, as is every offset of the 0x10000
span (second part). -/
theorem mmio_0x400f_read_value (mmi : mmio_0x400f) (addr size : Nat) :
    ((mmio_0x400f_read mmi addr size).value
      = if u32 addr = 0x3020 then 4 else if u32 addr = 0x3008 then 0x1000000 else 0) ∧
    (addr < 2 ^ 32 →
      (mmio_0x400f_read mmi addr size).value
        = if addr = 0x3020 then 4 else if addr = 0x3008 then 0x1000000 else 0) := by
  have g : (mmio_0x400f_read mmi addr size).value
      = if u32 addr = 0x3020 then 4 else if u32 addr = 0x3008 then 0x1000000 else 0 := by
    unfold mmio_0x400f_read
    split
    · rfl
    · split <;> rfl
  refine ⟨g, fun h => ?_⟩
  have e : u32 addr = addr := Nat.mod_eq_of_lt h
  rw [g, e]

/-- Witness for C8 at the offsets 0x3020, 0x3008 and 0x3000 with access width 4. -/
theorem mmio_0x400f_read_value_witness :
    (mmio_0x400f_read ⟨⟩ 0x3020 4).value = 4 ∧
    (mmio_0x400f_read ⟨⟩ 0x3008 4).value = 0x1000000 ∧
    (mmio_0x400f_read ⟨⟩ 0x3000 4).value = 0 :=
  ⟨(mmio_0x400f_read_value ⟨⟩ 0x3020 4).2 (by decide),
   (mmio_0x400f_read_value ⟨⟩ 0x3008 4).2 (by decide),
   (mmio_0x400f_read_value ⟨⟩ 0x3000 4).2 (by decide)⟩

/-! ### The console device -/

theorem ne_low_byte_iff (v : Nat) : v ≠ (v &&& 0xFF) ↔ 0xFF < v := by
  have e : v &&& 0xFF = v % 2 ^ 8 := Nat.and_pow_two_sub_one_eq_mod v 8
  rw [e]
  constructor
  · intro h
    by_contra hle
    exact h (Nat.mod_eq_of_lt (by omega)).symm
  · intro h heq
    have : v % 2 ^ 8 < 2 ^ 8 := Nat.mod_lt _ (by decide)
    omega

theorem DigicUartDev_write_tx_out (s : DigicUartState) (v size : Nat) :
    (DigicUartDev_write s 0x00 v size).out
      = (if 0xFF < v then [Effect.invalid_char (u32 v)] else []) ++
        [Effect.putchar (v % 256)] := by
  have e : (DigicUartDev_write s 0x00 v size).out
      = (if v ≠ (v &&& 0xFF) then [Effect.invalid_char (u32 v)] else []) ++
        [Effect.putchar (v % 256)] := rfl
  rw [e]
  by_cases h : 0xFF < v
  · rw [if_pos h, if_pos ((ne_low_byte_iff v).2 h)]
  · rw [if_neg h, if_neg (fun hne => h ((ne_low_byte_iff v).1 hne))]

/-- C9: for every value v, a write of v at offset 0x00 of the console puts exactly
one character, the low byte v mod 256, on the output stream and leaves the device
state unchanged; an anomaly entry is produced exactly when v > 0xFF. A write of 0x41
emits the character 0x41 and nothing else; a write of 0x141 emits one anomaly entry
and the character 0x41. -/
theorem DigicUartDev_write_transmit (s : DigicUartState) (v size : Nat) :
    (DigicUartDev_write s 0x00 v size).state = s ∧
    console_chars (DigicUartDev_write s 0x00 v size).out = [v % 256] ∧
    (anomaly_entries (DigicUartDev_write s 0x00 v size).out ≠ [] ↔ 0xFF < v) ∧
    (anomaly_entries (DigicUartDev_write s 0x00 v size).out).length ≤ 1 ∧
    (DigicUartDev_write s 0x00 0x41 size).out = [Effect.putchar 0x41] ∧
    (DigicUartDev_write s 0x00 0x141 size).out
      = [Effect.invalid_char 0x141, Effect.putchar 0x41] := by
  refine ⟨rfl, ?_, ?_, ?_, ?_, ?_⟩
  · rw [DigicUartDev_write_tx_out]
    split <;> rfl
  · rw [DigicUartDev_write_tx_out]
    by_cases h : 0xFF < v
    · simp [h, anomaly_entries]
    · simp [h, anomaly_entries]
  · rw [DigicUartDev_write_tx_out]
    split <;> simp [anomaly_entries]
  · rw [DigicUartDev_write_tx_out]
    decide
  · rw [DigicUartDev_write_tx_out]
    decide

theorem testBit_clear_rx_rdy (x i : Nat) (hx : x < 2 ^ 32) :
    (u32 (x &&& not32 ST_RX_RDY)).testBit i = (x.testBit i && decide (i ≠ 0)) := by
  have hle : x &&& not32 ST_RX_RDY < 2 ^ 32 := Nat.lt_of_le_of_lt Nat.and_le_left hx
  rw [u32, Nat.mod_eq_of_lt hle, Nat.testBit_and]
  by_cases hi : i < 32
  · have hm : (not32 ST_RX_RDY).testBit i = decide (i ≠ 0) := by
      interval_cases i <;> decide
    rw [hm]
  · have hxi : x.testBit i = false :=
      Nat.testBit_lt_two_pow
        (Nat.lt_of_lt_of_le hx (Nat.pow_le_pow_right (by decide) (Nat.le_of_not_lt hi)))
    rw [hxi]
    rfl

/-- C10: for every device state (its reg_st a 32-bit value), a read at offset 0x04
returns reg_rx, clears bit 0 of reg_st, leaves every other bit i of reg_st unchanged,
and leaves flags, int_flags, reg_rx and uart_just_received unchanged. -/
theorem DigicUartDev_read_rx (s : DigicUartState) (size i : Nat) (h : s.reg_st < 2 ^ 32) :
    (DigicUartDev_read s 0x04 size).value = s.reg_rx ∧
    (DigicUartDev_read s 0x04 size).state.reg_st.testBit 0 = false ∧
    (i ≠ 0 →
      (DigicUartDev_read s 0x04 size).state.reg_st.testBit i = s.reg_st.testBit i) ∧
    (DigicUartDev_read s 0x04 size).state.flags = s.flags ∧
    (DigicUartDev_read s 0x04 size).state.int_flags = s.int_flags ∧
    (DigicUartDev_read s 0x04 size).state.reg_rx = s.reg_rx ∧
    (DigicUartDev_read s 0x04 size).state.uart_just_received = s.uart_just_received := by
  have e : (DigicUartDev_read s 0x04 size).state.reg_st
      = u32 (s.reg_st &&& not32 ST_RX_RDY) := rfl
  refine ⟨rfl, ?_, ?_, rfl, rfl, rfl, rfl⟩
  · rw [e, testBit_clear_rx_rdy _ _ h]
    simp
  · intro hi
    rw [e, testBit_clear_rx_rdy _ _ h]
    simp [hi]

/-- Witness for C10 at a state with reg_st = 3 (receive-ready and transmit-ready set)
and reg_rx = 0x41, looking at bit 1. -/
theorem DigicUartDev_read_rx_witness :
    (DigicUartDev_read ⟨0x800, 1, 3, 0x41, 0⟩ 0x04 4).value = 0x41 ∧
    (DigicUartDev_read ⟨0x800, 1, 3, 0x41, 0⟩ 0x04 4).state.reg_st.testBit 0 = false ∧
    (DigicUartDev_read ⟨0x800, 1, 3, 0x41, 0⟩ 0x04 4).state.reg_st.testBit 1
      = Nat.testBit 3 1 ∧
    (DigicUartDev_read ⟨0x800, 1, 3, 0x41, 0⟩ 0x04 4).state.flags = 0x800 ∧
    (DigicUartDev_read ⟨0x800, 1, 3, 0x41, 0⟩ 0x04 4).state.int_flags = 1 ∧
    (DigicUartDev_read ⟨0x800, 1, 3, 0x41, 0⟩ 0x04 4).state.reg_rx = 0x41 ∧
    (DigicUartDev_read ⟨0x800, 1, 3, 0x41, 0⟩ 0x04 4).state.uart_just_received = 0 :=
  have h := DigicUartDev_read_rx ⟨0x800, 1, 3, 0x41, 0⟩ 4 1 (by decide)
  ⟨h.1, h.2.1, h.2.2.1 (by decide), h.2.2.2.1, h.2.2.2.2.1, h.2.2.2.2.2.1, h.2.2.2.2.2.2⟩

theorem bit_zero_set_iff (v : Nat) : v &&& 1 ≠ 0 ↔ v.testBit 0 = true := by
  rw [Nat.and_one_is_mod, Nat.testBit_zero]
  have h2 : v % 2 < 2 := Nat.mod_lt _ (by decide)
  constructor
  · intro h
    exact decide_eq_true (by omega)
  · intro h
    have h1 : v % 2 = 1 := of_decide_eq_true h
    omega

theorem DigicUartDev_write_st_set (s : DigicUartState) (v size : Nat)
    (hv : v.testBit 0 = true) :
    (DigicUartDev_write s 0x14 v size).state
      = { s with reg_st := u32 (s.reg_st &&& not32 ST_RX_RDY), uart_just_received := 100 } := by
  have h : v &&& 1 ≠ 0 := (bit_zero_set_iff v).2 hv
  have e : (DigicUartDev_write s 0x14 v size).state
      = (if v &&& 1 ≠ 0 then
          (⟨{ s with reg_st := u32 (s.reg_st &&& not32 ST_RX_RDY), uart_just_received := 100 },
            []⟩ : WriteResult DigicUartState)
        else ⟨{ s with reg_st := u32 v }, []⟩).state := rfl
  rw [e, if_pos h]

theorem DigicUartDev_write_st_clear (s : DigicUartState) (v size : Nat)
    (hv : v.testBit 0 = false) :
    (DigicUartDev_write s 0x14 v size).state = { s with reg_st := u32 v } := by
  have h : ¬ (v &&& 1 ≠ 0) := fun hne => by
    have ht := (bit_zero_set_iff v).1 hne
    rw [hv] at ht
    cases ht
  have e : (DigicUartDev_write s 0x14 v size).state
      = (if v &&& 1 ≠ 0 then
          (⟨{ s with reg_st := u32 (s.reg_st &&& not32 ST_RX_RDY), uart_just_received := 100 },
            []⟩ : WriteResult DigicUartState)
        else ⟨{ s with reg_st := u32 v }, []⟩).state := rfl
  rw [e, if_neg h]

/-- C11: for every device state (its reg_st a 32-bit value) and every value v written
at offset 0x14: if bit 0 of v is set, bit 0 of reg_st is cleared, uart_just_received
becomes 100 and every other bit i of reg_st is unchanged; otherwise reg_st becomes
the low 32 bits of v and uart_just_received is unchanged; in both cases flags,
int_flags and reg_rx are unchanged. -/
theorem DigicUartDev_write_status (s : DigicUartState) (v size i : Nat)
    (h : s.reg_st < 2 ^ 32) :
    (v.testBit 0 = true →
      (DigicUartDev_write s 0x14 v size).state.reg_st.testBit 0 = false ∧
      (DigicUartDev_write s 0x14 v size).state.uart_just_received = 100 ∧
      (i ≠ 0 →
        (DigicUartDev_write s 0x14 v size).state.reg_st.testBit i = s.reg_st.testBit i)) ∧
    (v.testBit 0 = false →
      (DigicUartDev_write s 0x14 v size).state.reg_st = v % 2 ^ 32 ∧
      (DigicUartDev_write s 0x14 v size).state.uart_just_received = s.uart_just_received) ∧
    (DigicUartDev_write s 0x14 v size).state.flags = s.flags ∧
    (DigicUartDev_write s 0x14 v size).state.int_flags = s.int_flags ∧
    (DigicUartDev_write s 0x14 v size).state.reg_rx = s.reg_rx := by
  cases hv : v.testBit 0 with
  | true =>
    rw [DigicUartDev_write_st_set s v size hv]
    refine ⟨fun _ => ⟨?_, rfl, fun hi => ?_⟩, fun hf => (by cases hf), rfl, rfl, rfl⟩
    · show (u32 (s.reg_st &&& not32 ST_RX_RDY)).testBit 0 = false
      rw [testBit_clear_rx_rdy _ _ h]
      simp
    · show (u32 (s.reg_st &&& not32 ST_RX_RDY)).testBit i = s.reg_st.testBit i
      rw [testBit_clear_rx_rdy _ _ h]
      simp [hi]
  | false =>
    rw [DigicUartDev_write_st_clear s v size hv]
    exact ⟨fun ht => (by cases ht), fun _ => ⟨rfl, rfl⟩, rfl, rfl, rfl⟩

/-- Witness for C11 at a state with reg_st = 3: the value 1 (bit 0 set), looking at
bit 1, and the value 0x12 (bit 0 clear). -/
theorem DigicUartDev_write_status_witness :
    ((DigicUartDev_write ⟨0x800, 1, 3, 0x41, 0⟩ 0x14 1 4).state.reg_st.testBit 0 = false ∧
      (DigicUartDev_write ⟨0x800, 1, 3, 0x41, 0⟩ 0x14 1 4).state.uart_just_received = 100 ∧
      (DigicUartDev_write ⟨0x800, 1, 3, 0x41, 0⟩ 0x14 1 4).state.reg_st.testBit 1
        = Nat.testBit 3 1) ∧
    ((DigicUartDev_write ⟨0x800, 1, 3, 0x41, 0⟩ 0x14 0x12 4).state.reg_st = 0x12 % 2 ^ 32 ∧
      (DigicUartDev_write ⟨0x800, 1, 3, 0x41, 0⟩ 0x14 0x12 4).state.uart_just_received = 0) :=
  have h1 := (DigicUartDev_write_status ⟨0x800, 1, 3, 0x41, 0⟩ 1 4 1 (by decide)).1 (by decide)
  have h2 :=
    (DigicUartDev_write_status ⟨0x800, 1, 3, 0x41, 0⟩ 0x12 4 1 (by decide)).2.1 (by decide)
  ⟨⟨h1.1, h1.2.1, h1.2.2 (by decide)⟩, h2⟩

/-- C12: for every device state, a read at offset 0x14 returns the fixed code 2 and
leaves the device state unchanged; this holds for the state left by a write of any
value v at offset 0x14 and whatever reg_st holds. -/
theorem DigicUartDev_read_status (s : DigicUartState) (size v wsize r : Nat) :
    (DigicUartDev_read s 0x14 size).value = 2 ∧
    (DigicUartDev_read s 0x14 size).state = s ∧
    (DigicUartDev_read (DigicUartDev_write s 0x14 v wsize).state 0x14 size).value = 2 ∧
    (DigicUartDev_read (DigicUartDev_write s 0x14 v wsize).state 0x14 size).state
      = (DigicUartDev_write s 0x14 v wsize).state ∧
    (DigicUartDev_read { s with reg_st := r } 0x14 size).value
      = (DigicUartDev_read s 0x14 size).value :=
  ⟨rfl, rfl, rfl, rfl, rfl⟩

/-- C13, as stated, fails: a write of 0x141 (outside 0..255) at offset 0x00 is not
rejected, the character 0x41 is put on the output stream. -/
theorem DigicUartDev_write_out_of_range_emits :
    console_chars (DigicUartDev_write ⟨0, 0, 0, 0, 0⟩ 0x00 0x141 4).out = [0x41] ∧
    console_chars (DigicUartDev_write ⟨0, 0, 0, 0, 0⟩ 0x00 0x141 4).out ≠ [] := by
  decide

/-- C13, amended: a write at the transmit offset 0x00 whose value v is outside 0..255
is reported as invalid (one anomaly entry, holding the low 32 bits of v) and is not
rejected: its low byte v mod 256 is still put on the output stream as one character. -/
theorem DigicUartDev_write_out_of_range (s : DigicUartState) (v size : Nat)
    (h : 0xFF < v) :
    anomaly_entries (DigicUartDev_write s 0x00 v size).out = [v % 2 ^ 32] ∧
    console_chars (DigicUartDev_write s 0x00 v size).out = [v % 256] ∧
    (DigicUartDev_write s 0x00 v size).state = s := by
  rw [DigicUartDev_write_tx_out, if_pos h]
  exact ⟨rfl, rfl, rfl⟩

/-- Witness for the amended C13 at the value 0x141. -/
theorem DigicUartDev_write_out_of_range_witness :
    anomaly_entries (DigicUartDev_write ⟨0, 0, 0, 0, 0⟩ 0x00 0x141 4).out = [0x141 % 2 ^ 32] ∧
    console_chars (DigicUartDev_write ⟨0, 0, 0, 0, 0⟩ 0x00 0x141 4).out = [0x141 % 256] ∧
    (DigicUartDev_write ⟨0, 0, 0, 0, 0⟩ 0x00 0x141 4).state = ⟨0, 0, 0, 0, 0⟩ :=
  DigicUartDev_write_out_of_range ⟨0, 0, 0, 0, 0⟩ 0x141 4 (by decide)

/-- C14: for every device state and every value v, a write of v at offset 0x18 sets
int_flags to v AND 1, which is v mod 2, so int_flags is 0 or 1 afterwards whatever
the higher bits of v are, and leaves flags, reg_st, reg_rx and uart_just_received
unchanged. -/
theorem DigicUartDev_write_int_enable (s : DigicUartState) (v size : Nat) :
    (DigicUartDev_write s 0x18 v size).state.int_flags = v &&& 1 ∧
    (DigicUartDev_write s 0x18 v size).state.int_flags = v % 2 ∧
    ((DigicUartDev_write s 0x18 v size).state.int_flags = 0 ∨
      (DigicUartDev_write s 0x18 v size).state.int_flags = 1) ∧
    (DigicUartDev_write s 0x18 v size).state.flags = s.flags ∧
    (DigicUartDev_write s 0x18 v size).state.reg_st = s.reg_st ∧
    (DigicUartDev_write s 0x18 v size).state.reg_rx = s.reg_rx ∧
    (DigicUartDev_write s 0x18 v size).state.uart_just_received = s.uart_just_received := by
  have h2 : v % 2 < 2 := Nat.mod_lt _ (by decide)
  have e : (DigicUartDev_write s 0x18 v size).state.int_flags = u32 (v &&& 1) := rfl
  have m : u32 (v &&& 1) = v % 2 := by
    rw [Nat.and_one_is_mod]
    exact Nat.mod_eq_of_lt (Nat.lt_trans h2 (by decide))
  refine ⟨?_, ?_, ?_, rfl, rfl, rfl, rfl⟩
  · rw [e, m, Nat.and_one_is_mod]
  · rw [e, m]
  · rw [e, m]
    omega

/-! ### The bootloader block, write then read -/

/-- C20: for every prior state of the block bl_mmio and every 32-bit value v, a write
of v at offset 0x154 followed by a read of offset 0x154 returns v: after a write of
0x1 the read returns 0x1, after a write of a non-zero v the read is non-zero; the
read leaves the stored field unchanged. -/
theorem bl_mmio_write_read (mmi : bl_mmio) (v wsize rsize : Nat) (hv : v < 2 ^ 32) :
    (bl_mmio_read (bl_mmio_write mmi 0x154 v wsize).state 0x154 rsize).value = v ∧
    (bl_mmio_read (bl_mmio_write mmi 0x154 1 wsize).state 0x154 rsize).value = 1 ∧
    (v ≠ 0 → (bl_mmio_read (bl_mmio_write mmi 0x154 v wsize).state 0x154 rsize).value ≠ 0) ∧
    (bl_mmio_read (bl_mmio_write mmi 0x154 v wsize).state 0x154 rsize).state.f0x154
      = (bl_mmio_write mmi 0x154 v wsize).state.f0x154 ∧
    (bl_mmio_write mmi 0x154 v wsize).state.f0x154 = v := by
  have uv : u32 v = v := Nat.mod_eq_of_lt hv
  have e : (bl_mmio_read (bl_mmio_write mmi 0x154 v wsize).state 0x154 rsize).value
      = u32 v := rfl
  refine ⟨?_, rfl, fun hne => ?_, rfl, uv⟩
  · rw [e, uv]
  · rw [e, uv]
    exact hne

/-- Witness for C20 at the stored field 0 and the value 0xe74a9d23. -/
theorem bl_mmio_write_read_witness :
    (bl_mmio_read (bl_mmio_write ⟨0⟩ 0x154 0xe74a9d23 4).state 0x154 4).value = 0xe74a9d23 ∧
    (bl_mmio_read (bl_mmio_write ⟨0⟩ 0x154 0xe74a9d23 4).state 0x154 4).value ≠ 0 :=
  have h := bl_mmio_write_read ⟨0⟩ 0xe74a9d23 4 4 (by decide)
  ⟨h.1, h.2.2.1 (by decide)⟩

/-! ### Machine construction -/

theorem uncacheable_size_eq_min (r : Nat) :
    (if r > 0x40000000 then 0x40000000 else r) = min r 0x40000000 := by
  split <;> omega

theorem eos_r_init_system_memory (q : Framework) (c : EOSRMachineClass) :
    (eos_r_init q c).system_memory =
      [⟨c.eos.rom0.address,
        ⟨RegionId.eos_rom0, c.eos.rom0.size,
          RegionKind.ram_from_file BackingFile.tmp_rom0_bin 0 1⟩⟩,
       ⟨c.eos.rom1.address,
        ⟨RegionId.eos_rom1, c.eos.rom1.size,
          RegionKind.ram_from_file BackingFile.tmp_rom1_bin 0 1⟩⟩,
       ⟨0x40000000, ⟨RegionId.eos_ram_uncached, c.eos.ram_size, RegionKind.ram⟩⟩,
       ⟨0x0, ⟨RegionId.eos_ram_cached, min c.eos.ram_size 0x40000000,
          RegionKind.alias RegionId.eos_ram_uncached 0⟩⟩,
       ⟨0xDF000000, ⟨RegionId.eos_tcm, 0x1000000, RegionKind.ram⟩⟩,
       ⟨0xC0800000, ⟨RegionId.digic8_uart, 0x1000, RegionKind.io OpsTable.DigicUart_ops⟩⟩] := by
  rw [← uncacheable_size_eq_min]
  unfold eos_r_init
  by_cases h : (realize_loop q 0
      ((List.range DIGIC8_NUM_CPUS).map (fun _ => q.new_cpu CpuType.cortex_a9))).2 = true
  · simp only [h, if_true]
    rfl
  · simp only [h]
    rfl

theorem eosr_class_fields (oc : EOSRMachineClass) :
    (eosr_class oc).eos.rom0.address = 0xE0000000 ∧
    (eosr_class oc).eos.rom0.size = 0x02000000 ∧
    (eosr_class oc).eos.rom1.address = 0xF0000000 ∧
    (eosr_class oc).eos.rom1.size = 0x04000000 ∧
    (eosr_class oc).eos.ram_size = 0x80000000 ∧
    (eosr_class oc).eos.digic.boot_address = 0xE0000000 :=
  ⟨rfl, rfl, rfl, rfl, rfl, rfl⟩

theorem eosr_system_memory (q : Framework) (oc : EOSRMachineClass) :
    (eos_r_init q (eosr_class oc)).system_memory =
      [⟨0xE0000000,
        ⟨RegionId.eos_rom0, 0x02000000, RegionKind.ram_from_file BackingFile.tmp_rom0_bin 0 1⟩⟩,
       ⟨0xF0000000,
        ⟨RegionId.eos_rom1, 0x04000000, RegionKind.ram_from_file BackingFile.tmp_rom1_bin 0 1⟩⟩,
       ⟨0x40000000, ⟨RegionId.eos_ram_uncached, 0x80000000, RegionKind.ram⟩⟩,
       ⟨0x0, ⟨RegionId.eos_ram_cached, 0x40000000,
          RegionKind.alias RegionId.eos_ram_uncached 0⟩⟩,
       ⟨0xDF000000, ⟨RegionId.eos_tcm, 0x1000000, RegionKind.ram⟩⟩,
       ⟨0xC0800000, ⟨RegionId.digic8_uart, 0x1000, RegionKind.io OpsTable.DigicUart_ops⟩⟩] := by
  rw [eos_r_init_system_memory]
  obtain ⟨h1, h2, h3, h4, h5, _⟩ := eosr_class_fields oc
  rw [h1, h2, h3, h4, h5]
  rfl

/-- C15: for every descriptor, with RAM size r, `eos_r_init` places the uncached RAM
region at address 0x40000000 with size r and the cached alias of it at address 0
with size min(r, 0x40000000); for the EOS R descriptor (r = 0x80000000) the cached
alias spans 0x40000000 bytes at address 0 and the uncached region 0x80000000 bytes at
address 0x40000000. -/
theorem eos_r_init_ram_layout (q : Framework) (c oc : EOSRMachineClass) :
    placed (eos_r_init q c).system_memory RegionId.eos_ram_uncached
      = [⟨0x40000000, ⟨RegionId.eos_ram_uncached, c.eos.ram_size, RegionKind.ram⟩⟩] ∧
    placed (eos_r_init q c).system_memory RegionId.eos_ram_cached
      = [⟨0x0, ⟨RegionId.eos_ram_cached, min c.eos.ram_size 0x40000000,
          RegionKind.alias RegionId.eos_ram_uncached 0⟩⟩] ∧
    (eosr_class oc).eos.ram_size = 0x80000000 ∧
    placed (eos_r_init q (eosr_class oc)).system_memory RegionId.eos_ram_uncached
      = [⟨0x40000000, ⟨RegionId.eos_ram_uncached, 0x80000000, RegionKind.ram⟩⟩] ∧
    placed (eos_r_init q (eosr_class oc)).system_memory RegionId.eos_ram_cached
      = [⟨0x0, ⟨RegionId.eos_ram_cached, 0x40000000,
          RegionKind.alias RegionId.eos_ram_uncached 0⟩⟩] := by
  refine ⟨?_, ?_, rfl, ?_, ?_⟩
  · rw [eos_r_init_system_memory]
    rfl
  · rw [eos_r_init_system_memory]
    rfl
  · rw [eosr_system_memory]
    rfl
  · rw [eosr_system_memory]
    rfl

theorem eosr_with_ram_system_memory (q : Framework) (oc : EOSRMachineClass) (r : Nat) :
    (eos_r_init q (eosr_class_with_ram oc r)).system_memory =
      [⟨0xE0000000,
        ⟨RegionId.eos_rom0, 0x02000000, RegionKind.ram_from_file BackingFile.tmp_rom0_bin 0 1⟩⟩,
       ⟨0xF0000000,
        ⟨RegionId.eos_rom1, 0x04000000, RegionKind.ram_from_file BackingFile.tmp_rom1_bin 0 1⟩⟩,
       ⟨0x40000000, ⟨RegionId.eos_ram_uncached, r, RegionKind.ram⟩⟩,
       ⟨0x0, ⟨RegionId.eos_ram_cached, min r 0x40000000,
          RegionKind.alias RegionId.eos_ram_uncached 0⟩⟩,
       ⟨0xDF000000, ⟨RegionId.eos_tcm, 0x1000000, RegionKind.ram⟩⟩,
       ⟨0xC0800000, ⟨RegionId.digic8_uart, 0x1000, RegionKind.io OpsTable.DigicUart_ops⟩⟩] := by
  rw [eos_r_init_system_memory]
  rfl

theorem eosr_ram_cover_facts (r X : Nat) (hX : X < min r 0x40000000) :
    (¬ (0xE0000000 ≤ X ∧ X < 0xE0000000 + 0x02000000) ∧
     ¬ (0xF0000000 ≤ X ∧ X < 0xF0000000 + 0x04000000) ∧
     ¬ (0x40000000 ≤ X ∧ X < 0x40000000 + r) ∧
     (0x0 ≤ X ∧ X < 0x0 + min r 0x40000000) ∧
     ¬ (0xDF000000 ≤ X ∧ X < 0xDF000000 + 0x1000000) ∧
     ¬ (0xC0800000 ≤ X ∧ X < 0xC0800000 + 0x1000)) ∧
    (¬ (0xE0000000 ≤ 0x40000000 + X ∧ 0x40000000 + X < 0xE0000000 + 0x02000000) ∧
     ¬ (0xF0000000 ≤ 0x40000000 + X ∧ 0x40000000 + X < 0xF0000000 + 0x04000000) ∧
     (0x40000000 ≤ 0x40000000 + X ∧ 0x40000000 + X < 0x40000000 + r) ∧
     ¬ (0x0 ≤ 0x40000000 + X ∧ 0x40000000 + X < 0x0 + min r 0x40000000) ∧
     ¬ (0xDF000000 ≤ 0x40000000 + X ∧ 0x40000000 + X < 0xDF000000 + 0x1000000) ∧
     ¬ (0xC0800000 ≤ 0x40000000 + X ∧ 0x40000000 + X < 0xC0800000 + 0x1000)) := by
  have h1 : X < 0x40000000 := Nat.lt_of_lt_of_le hX (Nat.min_le_right _ _)
  have h2 : X < r := Nat.lt_of_lt_of_le hX (Nat.min_le_left _ _)
  refine ⟨⟨?_, ?_, ?_, ⟨Nat.zero_le _, ?_⟩, ?_, ?_⟩, ⟨?_, ?_, ?_, ?_, ?_, ?_⟩⟩ <;> omega

theorem resolve_cached (q : Framework) (oc : EOSRMachineClass) (r X : Nat)
    (hX : X < min r 0x40000000) :
    resolve (eos_r_init q (eosr_class_with_ram oc r)).system_memory X
      = some (RegionId.eos_ram_uncached, X) ∧
    ((eos_r_init q (eosr_class_with_ram oc r)).system_memory.filter
      (fun t => t.covers X)).length = 1 := by
  obtain ⟨⟨c1, c2, c3, c4, c5, c6⟩, _⟩ := eosr_ram_cover_facts r X hX
  rw [eosr_with_ram_system_memory]
  constructor
  · simp only [resolve, List.find?, Subregion.covers, c1, c2, c3, c4, decide_True,
      decide_False]
    simp
  · simp only [List.filter, Subregion.covers, c1, c2, c3, c4, c5, c6, decide_True,
      decide_False]
    rfl

theorem resolve_uncached (q : Framework) (oc : EOSRMachineClass) (r X : Nat)
    (hX : X < min r 0x40000000) :
    resolve (eos_r_init q (eosr_class_with_ram oc r)).system_memory (0x40000000 + X)
      = some (RegionId.eos_ram_uncached, X) ∧
    ((eos_r_init q (eosr_class_with_ram oc r)).system_memory.filter
      (fun t => t.covers (0x40000000 + X))).length = 1 := by
  obtain ⟨_, ⟨c1, c2, c3, c4, c5, c6⟩⟩ := eosr_ram_cover_facts r X hX
  rw [eosr_with_ram_system_memory]
  constructor
  · simp only [resolve, List.find?, Subregion.covers, c1, c2, c3, decide_True, decide_False]
    simp
  · simp only [List.filter, Subregion.covers, c1, c2, c3, c4, c5, c6, decide_True,
      decide_False]
    rfl

theorem bus_write_read_same_byte (map : List Subregion) (st : Storage) (a a1 b : Nat)
    (id : RegionId) (off : Nat)
    (ha : resolve map a = some (id, off)) (ha1 : resolve map a1 = some (id, off)) :
    bus_read map (bus_write map st a b) a1 = some b := by
  simp [bus_read, bus_write, ha, ha1]

/-- C16: for every RAM size r and every X below min(r, 0x40000000), in the memory map
that `eos_r_init` builds the cached address X and the uncached address 0x40000000 + X
each lie in exactly one placed region and resolve to the same byte, offset X of the
RAM region "eos.ram_uncached", so a byte written through either address is what a
following read through the other returns. -/
theorem eos_r_ram_aliasing (q : Framework) (oc : EOSRMachineClass) (r X : Nat)
    (st : Storage) (b : Nat) (hX : X < min r 0x40000000) :
    resolve (eos_r_init q (eosr_class_with_ram oc r)).system_memory X
      = some (RegionId.eos_ram_uncached, X) ∧
    resolve (eos_r_init q (eosr_class_with_ram oc r)).system_memory (0x40000000 + X)
      = some (RegionId.eos_ram_uncached, X) ∧
    bus_read (eos_r_init q (eosr_class_with_ram oc r)).system_memory
      (bus_write (eos_r_init q (eosr_class_with_ram oc r)).system_memory st X b)
      (0x40000000 + X) = some b ∧
    bus_read (eos_r_init q (eosr_class_with_ram oc r)).system_memory
      (bus_write (eos_r_init q (eosr_class_with_ram oc r)).system_memory st (0x40000000 + X) b)
      X = some b ∧
    ((eos_r_init q (eosr_class_with_ram oc r)).system_memory.filter
      (fun t => t.covers X)).length = 1 ∧
    ((eos_r_init q (eosr_class_with_ram oc r)).system_memory.filter
      (fun t => t.covers (0x40000000 + X))).length = 1 :=
  ⟨(resolve_cached q oc r X hX).1, (resolve_uncached q oc r X hX).1,
   bus_write_read_same_byte _ st _ _ b _ _ (resolve_cached q oc r X hX).1
     (resolve_uncached q oc r X hX).1,
   bus_write_read_same_byte _ st _ _ b _ _ (resolve_uncached q oc r X hX).1
     (resolve_cached q oc r X hX).1,
   (resolve_cached q oc r X hX).2, (resolve_uncached q oc r X hX).2⟩

/-- Witness for C16 on the EOS R RAM size 0x80000000, X = 0x1234, a store of zeros
and the byte 0xAB. -/
theorem eos_r_ram_aliasing_witness :
    resolve (eos_r_init framework_ok (eosr_class_with_ram zero_class 0x80000000)).system_memory
      0x1234 = some (RegionId.eos_ram_uncached, 0x1234) ∧
    resolve (eos_r_init framework_ok (eosr_class_with_ram zero_class 0x80000000)).system_memory
      (0x40000000 + 0x1234) = some (RegionId.eos_ram_uncached, 0x1234) ∧
    bus_read (eos_r_init framework_ok (eosr_class_with_ram zero_class 0x80000000)).system_memory
      (bus_write
        (eos_r_init framework_ok (eosr_class_with_ram zero_class 0x80000000)).system_memory
        (fun _ _ => 0) 0x1234 0xAB)
      (0x40000000 + 0x1234) = some 0xAB ∧
    bus_read (eos_r_init framework_ok (eosr_class_with_ram zero_class 0x80000000)).system_memory
      (bus_write
        (eos_r_init framework_ok (eosr_class_with_ram zero_class 0x80000000)).system_memory
        (fun _ _ => 0) (0x40000000 + 0x1234) 0xAB)
      0x1234 = some 0xAB :=
  have h :=
    eos_r_ram_aliasing framework_ok zero_class 0x80000000 0x1234 (fun _ _ => 0) 0xAB (by decide)
  ⟨h.1, h.2.1, h.2.2.1, h.2.2.2.1⟩

theorem covers_of_disjoint {r t : Subregion} {a : Nat} (h : r.disjoint t)
    (hr : r.covers a = true) : t.covers a = false := by
  unfold Subregion.covers at hr ⊢
  unfold Subregion.disjoint at h
  have h1 := of_decide_eq_true hr
  apply decide_eq_false
  omega

theorem covering_at_most_one (map : List Subregion) (a : Nat)
    (h : map.Pairwise Subregion.disjoint) :
    (map.filter (fun r => r.covers a)).length ≤ 1 := by
  induction map with
  | nil => simp
  | cons r rest ih =>
    rw [List.pairwise_cons] at h
    rw [List.filter_cons]
    by_cases hr : r.covers a = true
    · have hnil : rest.filter (fun t => t.covers a) = [] := by
        rw [List.filter_eq_nil_iff]
        intro t ht
        rw [covers_of_disjoint (h.1 t ht) hr]
        exact Bool.false_ne_true
      rw [if_pos hr, hnil]
      simp
    · rw [if_neg hr]
      exact ih h.2

theorem covering_count (map : List Subregion) (a : Nat)
    (h : map.Pairwise Subregion.disjoint) :
    (map.filter (fun r => r.covers a)).length
      = if map.any (fun r => r.covers a) then 1 else 0 := by
  have hle := covering_at_most_one map a h
  by_cases hany : map.any (fun r => r.covers a) = true
  · rw [if_pos hany]
    have hpos : 0 < (map.filter (fun r => r.covers a)).length := by
      rw [List.length_pos]
      intro hnil
      rw [List.filter_eq_nil_iff] at hnil
      rw [List.any_eq_true] at hany
      obtain ⟨t, ht, hc⟩ := hany
      exact hnil t ht hc
    omega
  · rw [if_neg hany]
    rw [List.length_eq_zero, List.filter_eq_nil_iff]
    intro t ht hc
    exact hany (List.any_eq_true.2 ⟨t, ht, hc⟩)

theorem eosmpu_system_memory (cpu_type : CpuType) :
    (eosmpu_init cpu_type).system_memory = (eosmpu_init CpuType.cortex_m4).system_memory :=
  rfl

/-- C17: the regions that `eos_r_init` places for the EOS R descriptor and the regions
that `eosmpu_init` places have the address ranges listed in the claim; in each map
the ranges are pairwise non-overlapping and every range ends at or below 2^32, so
every address a lies in exactly one placed region if it is mapped and in none
otherwise. -/
theorem address_space_construction (q : Framework) (oc : EOSRMachineClass)
    (cpu_type : CpuType) (a : Nat) :
    ranges (eos_r_init q (eosr_class oc)).system_memory
      = [(0xE0000000, 0x02000000), (0xF0000000, 0x04000000), (0x40000000, 0x80000000),
         (0x0, 0x40000000), (0xDF000000, 0x1000000), (0xC0800000, 0x1000)] ∧
    (eos_r_init q (eosr_class oc)).system_memory.Pairwise Subregion.disjoint ∧
    (eos_r_init q (eosr_class oc)).system_memory.all
      (fun r => decide (r.offset + r.mr.size ≤ 2 ^ 32)) = true ∧
    ((eos_r_init q (eosr_class oc)).system_memory.filter (fun r => r.covers a)).length
      = (if (eos_r_init q (eosr_class oc)).system_memory.any (fun r => r.covers a)
          then 1 else 0) ∧
    ranges (eosmpu_init cpu_type).system_memory
      = [(0x0, 0x100000), (0x20000000, 0xE000), (0x22000000, 0x200000),
         (0x5DFF0000, 0x10000), (0x40090000, 0x10000), (0x400F0000, 0x10000),
         (0x400b0000, 0x10000)] ∧
    (eosmpu_init cpu_type).system_memory.Pairwise Subregion.disjoint ∧
    (eosmpu_init cpu_type).system_memory.all
      (fun r => decide (r.offset + r.mr.size ≤ 2 ^ 32)) = true ∧
    ((eosmpu_init cpu_type).system_memory.filter (fun r => r.covers a)).length
      = (if (eosmpu_init cpu_type).system_memory.any (fun r => r.covers a) then 1 else 0) := by
  have p1 : (eos_r_init q (eosr_class oc)).system_memory.Pairwise Subregion.disjoint := by
    rw [eosr_system_memory]
    decide
  have p2 : (eosmpu_init cpu_type).system_memory.Pairwise Subregion.disjoint := by
    rw [eosmpu_system_memory]
    decide
  refine ⟨?_, p1, ?_, covering_count _ a p1, ?_, p2, ?_, covering_count _ a p2⟩
  · rw [eosr_system_memory]
    rfl
  · rw [eosr_system_memory]
    decide
  · rfl
  · rw [eosmpu_system_memory]
    decide

/-- C18, the code at a descriptor whose ROM1 size is 0: `eos_r_init` places a ROM1
region (of size 0) at 0xF0000000 all the same, because its condition tests the
address of the size member, not the size. -/
theorem eos_r_init_places_rom1_of_size_zero (q : Framework) (oc : EOSRMachineClass) :
    (eosr_class_with_rom1_size oc 0).eos.rom1.size = 0 ∧
    placed (eos_r_init q (eosr_class_with_rom1_size oc 0)).system_memory RegionId.eos_rom1
      = [⟨0xF0000000,
          ⟨RegionId.eos_rom1, 0, RegionKind.ram_from_file BackingFile.tmp_rom1_bin 0 1⟩⟩] ∧
    placed (eos_r_init q (eosr_class_with_rom1_size oc 0)).system_memory RegionId.eos_rom1
      ≠ [] := by
  refine ⟨rfl, ?_, ?_⟩
  · rw [eos_r_init_system_memory]
    rfl
  · rw [eos_r_init_system_memory]
    intro h
    cases h

theorem realize_loop_ok (q : Framework) (a b : ARMCPU)
    (hr : ∀ i, i < DIGIC8_NUM_CPUS → q.qdev_realize i = true) :
    realize_loop q 0 [a, b]
      = ([{ realize_properties q 0 a with realized := true },
          { realize_properties q 1 b with realized := true }], true) := by
  have h0 : q.qdev_realize 0 = true := hr 0 (by decide)
  have h1 : q.qdev_realize 1 = true := hr 1 (by decide)
  simp [realize_loop, h0, h1]

theorem eos_r_init_pc (q : Framework) (c : EOSRMachineClass)
    (hr : ∀ i, i < DIGIC8_NUM_CPUS → q.qdev_realize i = true) :
    (eos_r_init q c).cpu.map ARMCPU.pc
      = List.replicate DIGIC8_NUM_CPUS c.eos.digic.boot_address := by
  have e : (List.range DIGIC8_NUM_CPUS).map (fun _ => q.new_cpu CpuType.cortex_a9)
      = [q.new_cpu CpuType.cortex_a9, q.new_cpu CpuType.cortex_a9] := rfl
  unfold eos_r_init
  simp only [e, realize_loop_ok q _ _ hr, if_true]
  rfl

/-- C19: the boot address of the EOS R descriptor is 0xE0000000, the start address of
ROM0, and lies inside the ROM0 region that `eos_r_init` places; when the cores
realize, `eos_r_init` leaves DIGIC8_NUM_CPUS (2) cores, each with its program counter
at the boot address of the descriptor it was given. -/
theorem eos_r_init_boot_address (q : Framework) (c oc : EOSRMachineClass)
    (hr : ∀ i, i < DIGIC8_NUM_CPUS → q.qdev_realize i = true) :
    (eosr_class oc).eos.digic.boot_address = 0xE0000000 ∧
    (eosr_class oc).eos.digic.boot_address = (eosr_class oc).eos.rom0.address ∧
    placed (eos_r_init q (eosr_class oc)).system_memory RegionId.eos_rom0
      = [⟨0xE0000000,
          ⟨RegionId.eos_rom0, 0x02000000,
            RegionKind.ram_from_file BackingFile.tmp_rom0_bin 0 1⟩⟩] ∧
    ((placed (eos_r_init q (eosr_class oc)).system_memory RegionId.eos_rom0).all
      (fun r => r.covers (eosr_class oc).eos.digic.boot_address)) = true ∧
    (eos_r_init q (eosr_class oc)).cpu.map ARMCPU.pc
      = [(eosr_class oc).eos.digic.boot_address, (eosr_class oc).eos.digic.boot_address] ∧
    (eos_r_init q c).cpu.map ARMCPU.pc
      = List.replicate DIGIC8_NUM_CPUS c.eos.digic.boot_address := by
  have hb : (eosr_class oc).eos.digic.boot_address = 0xE0000000 := rfl
  have ha : (eosr_class oc).eos.rom0.address = 0xE0000000 := rfl
  refine ⟨hb, hb.trans ha.symm, ?_, ?_, eos_r_init_pc q (eosr_class oc) hr, eos_r_init_pc q c hr⟩
  · rw [eosr_system_memory]
    rfl
  · rw [eosr_system_memory, hb]
    decide

/-- Witness for C19 in a framework where every `qdev_realize` succeeds, from an
all-zero class object. -/
theorem eos_r_init_boot_address_witness :
    (eosr_class zero_class).eos.digic.boot_address = 0xE0000000 ∧
    (eos_r_init framework_ok (eosr_class zero_class)).cpu.map ARMCPU.pc
      = [0xE0000000, 0xE0000000] :=
  have h := eos_r_init_boot_address framework_ok zero_class zero_class (fun _ _ => rfl)
  ⟨h.1, h.2.2.2.2.1⟩

/-! ### The boot-handshake register: alternation and frame of a read -/

theorem toggled_shift (i : Nat) :
    toggled (i + 2) = if (i + 1) % 2 = 1 then 0x01 else 0x11 := by
  unfold toggled
  split_ifs <;> omega

/-- C21: after a write of 1 or of 0x11 at offset 0xa240, consecutive reads of offset
0xa240 with no write in between alternate between 0x11 and 0x01: after a write of 1
the n-th read returns 0x11 for odd n and 0x01 for even n, after a write of 0x11 the
n-th read returns 0x01 for odd n and 0x11 for even n (read i of the list below is
the (i + 1)-th read). -/
theorem mmio_0x400b_reads_alternate (mmi : mmio_0x400b) (wsize rsize n : Nat) :
    (mmio_0x400b_ops.run mmi
      (Access.write 0xa240 1 wsize :: List.replicate n (Access.read 0xa240 rsize))).values
        = (List.range n).map (fun i => if (i + 1) % 2 = 1 then 0x11 else 0x01) ∧
    (mmio_0x400b_ops.run mmi
      (Access.write 0xa240 0x11 wsize :: List.replicate n (Access.read 0xa240 rsize))).values
        = (List.range n).map (fun i => if (i + 1) % 2 = 1 then 0x01 else 0x11) := by
  have w : mmio_0x400b_ops.write = mmio_0x400b_write := rfl
  have u1 : u32 1 = 1 := by decide
  have u2 : u32 0x11 = 0x11 := by decide
  constructor
  · rw [run_write, w, mmio_0x400b_write_state, u1]
    exact (reads_from_one_and_seventeen rsize n).1
  · rw [run_write, w, mmio_0x400b_write_state, u2, (reads_from_one_and_seventeen rsize n).2]
    exact List.map_congr_left (fun i _ => toggled_shift i)

/-- C22: for every stored value s, a read of offset 0xa240 changes at most bit 0x10 of
the stored field (the new field AND NOT 0x10 equals s AND NOT 0x10), and the value the
read returns is the stored field after the read. -/
theorem mmio_0x400b_read_frame (s size : Nat) :
    (mmio_0x400b_read ⟨s⟩ 0xa240 size).state.f0xa240 &&& not32 0x10 = s &&& not32 0x10 ∧
    (mmio_0x400b_read ⟨s⟩ 0xa240 size).value
      = (mmio_0x400b_read ⟨s⟩ 0xa240 size).state.f0xa240 := by
  by_cases h1 : s = 1
  · subst h1
    rw [(mmio_0x400b_read_one size).1, (mmio_0x400b_read_one size).2]
    exact ⟨by decide, rfl⟩
  · by_cases h11 : s = 0x11
    · subst h11
      rw [(mmio_0x400b_read_seventeen size).1, (mmio_0x400b_read_seventeen size).2]
      exact ⟨by decide, rfl⟩
    · rw [(mmio_0x400b_read_other s size h1 h11).1, (mmio_0x400b_read_other s size h1 h11).2]
      exact ⟨rfl, rfl⟩

/-! ### The console device: the receive path -/

theorem testBit_zero_u32 (v : Nat) : (u32 v).testBit 0 = v.testBit 0 := by
  rw [u32, Nat.testBit_mod_two_pow]
  simp

theorem testBit_zero_rx_rdy_cleared (x : Nat) :
    (u32 (x &&& not32 ST_RX_RDY)).testBit 0 = false := by
  have hm : (not32 ST_RX_RDY).testBit 0 = false := by decide
  rw [testBit_zero_u32, Nat.testBit_and, hm]
  simp

theorem testBit_zero_of_and_one_eq_zero (v : Nat) (hc : v &&& 1 = 0) :
    (u32 v).testBit 0 = false := by
  rw [testBit_zero_u32]
  cases hv : v.testBit 0 with
  | false => rfl
  | true => exact absurd hc ((bit_zero_set_iff v).2 hv)

theorem DigicUartDev_read_rx_inert (s : DigicUartState) (addr size : Nat)
    (h : s.reg_st.testBit 0 = false) :
    (DigicUartDev_read s addr size).state.reg_rx = s.reg_rx ∧
    (DigicUartDev_read s addr size).state.reg_st.testBit 0 = false := by
  unfold DigicUartDev_read
  split_ifs
  · exact ⟨rfl, h⟩
  · exact ⟨rfl, testBit_zero_rx_rdy_cleared _⟩
  · exact ⟨rfl, h⟩
  · exact ⟨rfl, h⟩

theorem DigicUartDev_write_rx_inert (s : DigicUartState) (addr val size : Nat)
    (h : s.reg_st.testBit 0 = false) :
    (DigicUartDev_write s addr val size).state.reg_rx = s.reg_rx ∧
    (DigicUartDev_write s addr val size).state.reg_st.testBit 0 = false := by
  unfold DigicUartDev_write
  split_ifs
  all_goals
    first
    | exact ⟨rfl, h⟩
    | exact ⟨rfl, testBit_zero_rx_rdy_cleared _⟩
    | exact ⟨rfl, testBit_zero_of_and_one_eq_zero val (by assumption)⟩
    | exact ⟨rfl, testBit_zero_of_and_one_eq_zero val (not_not.mp (by assumption))⟩

theorem DigicUart_run_rx_inert (s : DigicUartState) (ops : List Access)
    (h : s.reg_st.testBit 0 = false) :
    (DigicUart_ops.run s ops).state.reg_rx = s.reg_rx ∧
    (DigicUart_ops.run s ops).state.reg_st.testBit 0 = false := by
  induction ops generalizing s with
  | nil => exact ⟨rfl, h⟩
  | cons a rest ih =>
    cases a with
    | read addr size =>
      have hr := DigicUartDev_read_rx_inert s addr size h
      have e : DigicUart_ops.read = DigicUartDev_read := rfl
      rw [run_read, e]
      have hi := ih (DigicUartDev_read s addr size).state hr.2
      exact ⟨hi.1.trans hr.1, hi.2⟩
    | write addr val size =>
      have hw := DigicUartDev_write_rx_inert s addr val size h
      have e : DigicUart_ops.write = DigicUartDev_write := rfl
      rw [run_write, e]
      have hi := ih (DigicUartDev_write s addr val size).state hw.2
      exact ⟨hi.1.trans hw.1, hi.2⟩

/-- C23: for every console state whose receive-ready bit (bit 0 of reg_st) is clear,
every read and every write, at any offset with any value, leaves reg_rx unchanged and
the receive-ready bit clear; so does every sequence of reads and writes, and a read
at offset 0x04 after any such sequence returns the initial reg_rx. -/
theorem DigicUart_receive_path_inert (s : DigicUartState) (addr val size rsize : Nat)
    (ops : List Access) (h : s.reg_st.testBit 0 = false) :
    (DigicUartDev_read s addr size).state.reg_rx = s.reg_rx ∧
    (DigicUartDev_read s addr size).state.reg_st.testBit 0 = false ∧
    (DigicUartDev_write s addr val size).state.reg_rx = s.reg_rx ∧
    (DigicUartDev_write s addr val size).state.reg_st.testBit 0 = false ∧
    (DigicUart_ops.run s ops).state.reg_rx = s.reg_rx ∧
    (DigicUart_ops.run s ops).state.reg_st.testBit 0 = false ∧
    (DigicUartDev_read (DigicUart_ops.run s ops).state 0x04 rsize).value = s.reg_rx := by
  have hr := DigicUartDev_read_rx_inert s addr size h
  have hw := DigicUartDev_write_rx_inert s addr val size h
  have hrun := DigicUart_run_rx_inert s ops h
  refine ⟨hr.1, hr.2, hw.1, hw.2, hrun.1, hrun.2, ?_⟩
  have e : (DigicUartDev_read (DigicUart_ops.run s ops).state 0x04 rsize).value
      = (DigicUart_ops.run s ops).state.reg_rx := rfl
  rw [e, hrun.1]

/-- Witness for C23 at a state with reg_st = 2 (receive-ready clear) and reg_rx = 0x41,
a status write of 0x12 and a sequence of a transmit, a receive read and a status
write. -/
theorem DigicUart_receive_path_inert_witness :
    (DigicUartDev_read ⟨0x800, 1, 2, 0x41, 0⟩ 0x14 4).state.reg_rx = 0x41 ∧
    (DigicUartDev_write ⟨0x800, 1, 2, 0x41, 0⟩ 0x14 0x12 4).state.reg_rx = 0x41 ∧
    (DigicUartDev_write ⟨0x800, 1, 2, 0x41, 0⟩ 0x14 0x12 4).state.reg_st.testBit 0 = false ∧
    (DigicUartDev_read
      (DigicUart_ops.run ⟨0x800, 1, 2, 0x41, 0⟩
        [Access.write 0x00 0x42 4, Access.read 0x04 4, Access.write 0x14 0x12 4]).state
      0x04 4).value = 0x41 :=
  have h := DigicUart_receive_path_inert ⟨0x800, 1, 2, 0x41, 0⟩ 0x14 0x12 4 4
    [Access.write 0x00 0x42 4, Access.read 0x04 4, Access.write 0x14 0x12 4] (by decide)
  ⟨h.1, h.2.2.1, h.2.2.2.1, h.2.2.2.2.2.2⟩

end QemuEos
